import Mathlib

/-!
Verification development for the ChessByte engine (src/board.js, src/engine1.js).

The JavaScript sources are shallowly embedded: the mutable `Board` object of
`board.js` becomes a Lean structure, every mutating method becomes a function
from the old board to the new board (returning the method's JS return value
where there is one), and JS numbers are modelled as `Nat` (square indices,
piece codes, bit sets, clocks) or `Int` (scores, the `-1` en-passant
sentinel, signed offsets).  JS arrays of fixed length 64 become `List Nat`
with `List.set` / `List.getD`; a write to a negative index, which in JS
creates an object property and leaves the array elements 0..63 unchanged, is
modelled as a no-op on the list.  JS strings become `List Char`.
-/

namespace Chess

/-! ### Piece and colour constants (board.js lines 5-24) -/

def EMPTY : Nat := 0
def PAWN : Nat := 1
def KNIGHT : Nat := 2
def BISHOP : Nat := 3
def ROOK : Nat := 4
def QUEEN : Nat := 5
def KING : Nat := 6

def WHITE : Nat := 8
def BLACK : Nat := 16

def PIECE_MASK : Nat := 7
def COLOR_MASK : Nat := 24

def CASTLE_WHITE_KINGSIDE : Nat := 1
def CASTLE_WHITE_QUEENSIDE : Nat := 2
def CASTLE_BLACK_KINGSIDE : Nat := 4
def CASTLE_BLACK_QUEENSIDE : Nat := 8

/-- Knight move offsets (board.js line 57), as signed offsets. -/
def KNIGHT_MOVES : List Int := [15, 17, 10, 6, -6, -10, -15, -17]

/-- Bishop directions NE, NW, SE, SW (board.js line 60). -/
def BISHOP_DIRECTIONS : List Int := [9, 7, -7, -9]

/-- Rook directions N, E, S, W (board.js line 63). -/
def ROOK_DIRECTIONS : List Int := [8, 1, -8, -1]

/-- Queen directions: bishop directions followed by rook directions
(board.js line 66). -/
def QUEEN_DIRECTIONS : List Int := BISHOP_DIRECTIONS ++ ROOK_DIRECTIONS

/-! ### Move objects (board.js `createMove`, lines 690-703)

A move object carries its source and target squares, the moving piece, the
captured piece, the promotion piece kind, the en-passant and castling flags,
and the saved castling rights / en-passant square / half-move clock of the
board at creation time.  `orderMoves` in engine1.js later attaches a `score`
field; it is part of the record with default 0. -/

structure Move where
  fromSq : Nat
  toSq : Nat
  piece : Nat
  captured : Nat
  promotion : Nat
  isEnPassant : Bool
  isCastle : Bool
  castlingRights : Nat
  enPassantSquare : Int
  halfMoveClock : Nat
  score : Int
deriving Repr, DecidableEq

/-! ### Board state (board.js constructor, lines 68-86) -/

structure Board where
  squares : List Nat
  turn : Nat
  castlingRights : Nat
  enPassantSquare : Int
  halfMoveClock : Nat
  fullMoveNumber : Nat
  whiteKingPos : Nat
  blackKingPos : Nat
  history : List Move
deriving Repr, DecidableEq

/-- Opposite colour, the ubiquitous `us === WHITE ? BLACK : WHITE` pattern. -/
def other (c : Nat) : Nat := if c = WHITE then BLACK else WHITE

/-- Write a square by a signed index: JS `this.squares[i] = v` for a negative
`i` creates an object property and leaves the 64 array elements unchanged, so
it is a no-op on the modelled list (as is any out-of-range `List.set`). -/
def setSqI (squares : List Nat) (i : Int) (v : Nat) : List Nat :=
  if 0 ≤ i then squares.set i.toNat v else squares

/-- Read a square: `this.squares[i]`. -/
def getSq (squares : List Nat) (i : Nat) : Nat := squares.getD i EMPTY

/-- Clear the bits of `mask` in `r`: the JS `r & ~mask` (32-bit bitwise NOT).
Since `r &&& mask` is a sub-mask of `r`, subtracting it clears exactly those
bits, and agrees with the JS semantics for every `r`. -/
def clearBits (r mask : Nat) : Nat := r - (r &&& mask)

/-- Update castling rights after a move from `f` to `t`
(board.js `updateCastlingRights`, lines 799-817).  Note the second group is
an `else if` chain: at most one rook-home square can clear its right. -/
def updateCastlingRights (rights f t : Nat) : Nat :=
  let r :=
    if f = 4 then clearBits rights (CASTLE_WHITE_KINGSIDE ||| CASTLE_WHITE_QUEENSIDE)
    else if f = 60 then clearBits rights (CASTLE_BLACK_KINGSIDE ||| CASTLE_BLACK_QUEENSIDE)
    else rights
  if f = 0 ∨ t = 0 then clearBits r CASTLE_WHITE_QUEENSIDE
  else if f = 7 ∨ t = 7 then clearBits r CASTLE_WHITE_KINGSIDE
  else if f = 56 ∨ t = 56 then clearBits r CASTLE_BLACK_QUEENSIDE
  else if f = 63 ∨ t = 63 then clearBits r CASTLE_BLACK_KINGSIDE
  else r

/-- The square of the pawn captured en passant: JS
`to - (us === WHITE ? 8 : -8)` (board.js lines 747 and 856). -/
def epCapSq (toSq us : Nat) : Int := (toSq : Int) - (if us = WHITE then 8 else -8)

/-- Make a move on the board (board.js `makeMove`, lines 709-792).  The JS
method mutates `this`; here the mutation sequence is threaded through local
`let`s and the updated board is returned. -/
def makeMove (b : Board) (m : Move) : Board :=
  let pieceType := m.piece &&& PIECE_MASK
  let us := b.turn
  let them := other us
  -- save the move to history (push; the stack is modelled head-first)
  let history := m :: b.history
  -- update half-move clock
  let halfMoveClock :=
    if pieceType = PAWN ∨ m.captured ≠ EMPTY then 0 else b.halfMoveClock + 1
  -- update full-move number
  let fullMoveNumber := if us = BLACK then b.fullMoveNumber + 1 else b.fullMoveNumber
  -- move the piece
  let squares1 := b.squares.set m.fromSq EMPTY
  -- handle promotion
  let squares2 :=
    if m.promotion ≠ EMPTY then squares1.set m.toSq (m.promotion ||| us)
    else squares1.set m.toSq m.piece
  -- handle en passant capture
  let squares3 :=
    if m.isEnPassant then setSqI squares2 (epCapSq m.toSq us) EMPTY else squares2
  -- handle castling: move the rook
  let squares4 :=
    if m.isCastle then
      if m.toSq = 6 then (squares3.set 5 (getSq squares3 7)).set 7 EMPTY
      else if m.toSq = 2 then (squares3.set 3 (getSq squares3 0)).set 0 EMPTY
      else if m.toSq = 62 then (squares3.set 61 (getSq squares3 63)).set 63 EMPTY
      else if m.toSq = 58 then (squares3.set 59 (getSq squares3 56)).set 56 EMPTY
      else squares3
    else squares3
  -- clear the en passant square, then set it again on a pawn double push
  let enPassantSquare : Int :=
    if pieceType = PAWN ∧ ((m.toSq : Int) - (m.fromSq : Int)).natAbs = 16 then
      (m.fromSq : Int) + (if us = WHITE then 8 else -8)
    else -1
  -- update castling rights
  let castlingRights := updateCastlingRights b.castlingRights m.fromSq m.toSq
  -- update king position if king moved
  let wk := if pieceType = KING ∧ us = WHITE then m.toSq else b.whiteKingPos
  let bk := if pieceType = KING ∧ us ≠ WHITE then m.toSq else b.blackKingPos
  -- switch turn
  { squares := squares4, turn := them, castlingRights := castlingRights,
    enPassantSquare := enPassantSquare, halfMoveClock := halfMoveClock,
    fullMoveNumber := fullMoveNumber, whiteKingPos := wk, blackKingPos := bk,
    history := history }

/-- Undo the last move (board.js `undoMove`, lines 822-894).  Returns the
updated board together with the popped move, or `none` on an empty history
(JS `return null`). -/
def undoMove (b : Board) : Board × Option Move :=
  match b.history with
  | [] => (b, none)
  | m :: rest =>
    -- switch turn back
    let turn1 := other b.turn
    -- if black moved, decrement full move number
    let fullMoveNumber := if turn1 = BLACK then b.fullMoveNumber - 1 else b.fullMoveNumber
    -- move piece back to original square
    let squares1 := b.squares.set m.fromSq m.piece
    let squares2 :=
      if m.promotion ≠ EMPTY then
        -- handle promotion (restore original pawn target contents)
        squares1.set m.toSq m.captured
      else if m.isEnPassant then
        -- for en passant, clear the target square and restore the captured pawn
        setSqI (squares1.set m.toSq EMPTY) (epCapSq m.toSq turn1)
          (PAWN ||| (if turn1 = WHITE then BLACK else WHITE))
      else
        -- restore captured piece or clear target square
        squares1.set m.toSq m.captured
    -- handle castling (move rook back)
    let squares3 :=
      if m.isCastle then
        if m.toSq = 6 then (squares2.set 7 (getSq squares2 5)).set 5 EMPTY
        else if m.toSq = 2 then (squares2.set 0 (getSq squares2 3)).set 3 EMPTY
        else if m.toSq = 62 then (squares2.set 63 (getSq squares2 61)).set 61 EMPTY
        else if m.toSq = 58 then (squares2.set 56 (getSq squares2 59)).set 59 EMPTY
        else squares2
      else squares2
    -- update king position if king moved
    let wk := if (m.piece &&& PIECE_MASK) = KING ∧ turn1 = WHITE then m.fromSq else b.whiteKingPos
    let bk := if (m.piece &&& PIECE_MASK) = KING ∧ turn1 ≠ WHITE then m.fromSq else b.blackKingPos
    ({ squares := squares3, turn := turn1, castlingRights := m.castlingRights,
       enPassantSquare := m.enPassantSquare, halfMoveClock := m.halfMoveClock,
       fullMoveNumber := fullMoveNumber, whiteKingPos := wk, blackKingPos := bk,
       history := rest }, some m)

/-- Make a null move (engine1.js `makeNullMove`, lines 704-710): switch
sides and clear the en passant square. -/
def makeNullMove (b : Board) : Board :=
  { b with turn := if b.turn = WHITE then BLACK else WHITE, enPassantSquare := -1 }

/-- Undo a null move (engine1.js `undoNullMove`, lines 715-718): switch
back.  Note that the en passant square is not touched. -/
def undoNullMove (b : Board) : Board :=
  { b with turn := if b.turn = WHITE then BLACK else WHITE }

/-- Whether the side to move has a piece that is neither a pawn nor a king
(engine1.js `hasNonPawnMaterial`, lines 723-737). -/
def hasNonPawnMaterial (b : Board) : Bool :=
  (List.range 64).any fun square =>
    let piece := getSq b.squares square
    piece ≠ EMPTY ∧ (piece &&& COLOR_MASK) = b.turn ∧
      (piece &&& PIECE_MASK) ≠ PAWN ∧ (piece &&& PIECE_MASK) ≠ KING

/-! ### Attack detection (board.js `isSquareAttacked`, lines 335-419) -/

/-- Whether a signed square index is on the board (board.js
`isSquareOnBoard`, lines 325-327). -/
def onBoard (s : Int) : Bool := 0 ≤ s ∧ s < 64

/-- One ray of the sliding-attack scan of `isSquareAttacked` (the `while`
loop at board.js lines 371-401), walking from `s` in direction `dir` with
`steps` counting iterations from 1.  A ray visits at most 8 squares before
leaving the board or triggering the wrap check, so fuel 64 never runs out. -/
def slideAttackRay (squares : List Nat) (attackingColor square : Nat) (dir : Int) :
    Nat → Int → Nat → Bool
  | 0, _, _ => false
  | fuel+1, s, steps =>
    if onBoard s then
      -- wrap check: compare the previous square's file with this one's
      let file1 := ((square : Int) + ((steps : Int) - 1) * dir).toNat % 8
      let file2 := s.toNat % 8
      if ((file1 : Int) - file2).natAbs > 2 ∧
          (dir = 1 ∨ dir = -1 ∨ dir = 9 ∨ dir = -7 ∨ dir = 7 ∨ dir = -9) then
        false
      else
        let piece := getSq squares s.toNat
        if piece ≠ EMPTY then
          let pieceType := piece &&& PIECE_MASK
          let pieceColor := piece &&& COLOR_MASK
          decide (pieceColor = attackingColor ∧
            (pieceType = QUEEN ∨ (pieceType = BISHOP ∧ dir ∈ BISHOP_DIRECTIONS) ∨
              (pieceType = ROOK ∧ dir ∈ ROOK_DIRECTIONS)))
        else
          slideAttackRay squares attackingColor square dir fuel (s + dir) (steps + 1)
    else false

/-- Whether `square` is attacked by a piece of `attackingColor`
(board.js `isSquareAttacked`, lines 335-419). -/
def isSquareAttacked (b : Board) (square attackingColor : Nat) : Bool :=
  -- check pawn attacks
  (let pawnDir : Int := if attackingColor = WHITE then -8 else 8
   [pawnDir + 1, pawnDir - 1].any fun offset =>
    let s := (square : Int) + offset
    onBoard s ∧
      (let file1 := square % 8
       let file2 := s.toNat % 8
       ((file1 : Int) - file2).natAbs = 1 ∧
         (let piece := getSq b.squares s.toNat
          piece ≠ EMPTY ∧ (piece &&& PIECE_MASK) = PAWN ∧
            (piece &&& COLOR_MASK) = attackingColor))) ||
  -- check knight attacks
  (KNIGHT_MOVES.any fun offset =>
    let s := (square : Int) + offset
    onBoard s ∧
      (let file1 := square % 8
       let file2 := s.toNat % 8
       let rank1 := square / 8
       let rank2 := s.toNat / 8
       ((file1 : Int) - file2).natAbs ≤ 2 ∧ ((rank1 : Int) - rank2).natAbs ≤ 2 ∧
         (let piece := getSq b.squares s.toNat
          piece ≠ EMPTY ∧ (piece &&& PIECE_MASK) = KNIGHT ∧
            (piece &&& COLOR_MASK) = attackingColor))) ||
  -- check bishop, rook, and queen attacks
  (QUEEN_DIRECTIONS.any fun dir =>
    slideAttackRay b.squares attackingColor square dir 64 ((square : Int) + dir) 1) ||
  -- check king attacks
  (QUEEN_DIRECTIONS.any fun dir =>
    let s := (square : Int) + dir
    onBoard s ∧
      (let file1 := square % 8
       let file2 := s.toNat % 8
       (((file1 : Int) - file2).natAbs ≤ 1 ∨ dir = 8 ∨ dir = -8) ∧
         (let piece := getSq b.squares s.toNat
          piece ≠ EMPTY ∧ (piece &&& PIECE_MASK) = KING ∧
            (piece &&& COLOR_MASK) = attackingColor)))

/-- Whether the king of `color` is in check (board.js `isInCheck`,
lines 426-429). -/
def isInCheck (b : Board) (color : Nat) : Bool :=
  let kingPos := if color = WHITE then b.whiteKingPos else b.blackKingPos
  isSquareAttacked b kingPos (if color = WHITE then BLACK else WHITE)

/-! ### Move generation (board.js lines 435-703) -/

/-- Create a move object (board.js `createMove`, lines 690-703). -/
def createMove (b : Board) (fromSq toSq promotion : Nat)
    (isEnPassant isCastle : Bool) : Move :=
  { fromSq := fromSq, toSq := toSq,
    piece := getSq b.squares fromSq,
    captured :=
      if isEnPassant then PAWN ||| (if b.turn = WHITE then BLACK else WHITE)
      else getSq b.squares toSq,
    promotion := promotion, isEnPassant := isEnPassant, isCastle := isCastle,
    castlingRights := b.castlingRights, enPassantSquare := b.enPassantSquare,
    halfMoveClock := b.halfMoveClock, score := 0 }

/-- Generate pawn moves from `square` (board.js `generatePawnMoves`,
lines 486-546).  The list order matches the JS push order: single push
(promotions Q,R,B,N), double push, then for each capture direction a
regular capture (with promotions) followed by the en passant capture. -/
def generatePawnMoves (b : Board) (square : Nat) : List Move :=
  let us := b.turn
  let them := other us
  let direction : Int := if us = WHITE then 8 else -8
  let startRank : Nat := if us = WHITE then 1 else 6
  let promotionRank : Nat := if us = WHITE then 6 else 1
  let to1 := (square : Int) + direction
  let pushes :=
    if onBoard to1 ∧ getSq b.squares to1.toNat = EMPTY then
      (if square / 8 = promotionRank then
        [createMove b square to1.toNat QUEEN false false,
         createMove b square to1.toNat ROOK false false,
         createMove b square to1.toNat BISHOP false false,
         createMove b square to1.toNat KNIGHT false false]
      else [createMove b square to1.toNat EMPTY false false]) ++
      (if square / 8 = startRank then
        let to2 := (square : Int) + 2 * direction
        if onBoard to2 ∧ getSq b.squares to2.toNat = EMPTY then
          [createMove b square to2.toNat EMPTY false false]
        else []
      else [])
    else []
  let captures := [direction + 1, direction - 1].flatMap fun offset =>
    let tSq := (square : Int) + offset
    if onBoard tSq then
      let file1 := square % 8
      let file2 := tSq.toNat % 8
      if ((file1 : Int) - file2).natAbs = 1 then
        let targetPiece := getSq b.squares tSq.toNat
        (if targetPiece ≠ EMPTY ∧ (targetPiece &&& COLOR_MASK) = them then
          if square / 8 = promotionRank then
            [createMove b square tSq.toNat QUEEN false false,
             createMove b square tSq.toNat ROOK false false,
             createMove b square tSq.toNat BISHOP false false,
             createMove b square tSq.toNat KNIGHT false false]
          else [createMove b square tSq.toNat EMPTY false false]
        else []) ++
        (if tSq = b.enPassantSquare then
          [createMove b square tSq.toNat EMPTY true false]
        else [])
      else []
    else []
  pushes ++ captures

/-- Generate knight moves from `square` (board.js `generateKnightMoves`,
lines 553-575). -/
def generateKnightMoves (b : Board) (square : Nat) : List Move :=
  let us := b.turn
  KNIGHT_MOVES.flatMap fun offset =>
    let tSq := (square : Int) + offset
    if onBoard tSq then
      let file1 := square % 8
      let file2 := tSq.toNat % 8
      let rank1 := square / 8
      let rank2 := tSq.toNat / 8
      if ((file1 : Int) - file2).natAbs > 2 ∨ ((rank1 : Int) - rank2).natAbs > 2 then []
      else
        let targetPiece := getSq b.squares tSq.toNat
        if targetPiece = EMPTY ∨ (targetPiece &&& COLOR_MASK) ≠ us then
          [createMove b square tSq.toNat EMPTY false false]
        else []
    else []

/-- One ray of `generateSlidingMoves` (the `while` loop at board.js
lines 586-612); fuel 64 never runs out (see `slideAttackRay`). -/
def slideGen (b : Board) (us square : Nat) (dir : Int) : Nat → Int → Nat → List Move
  | 0, _, _ => []
  | fuel+1, tSq, steps =>
    if onBoard tSq then
      let file1 := ((square : Int) + ((steps : Int) - 1) * dir).toNat % 8
      let file2 := tSq.toNat % 8
      if ((file1 : Int) - file2).natAbs > 2 ∧
          (dir = 1 ∨ dir = -1 ∨ dir = 9 ∨ dir = -7 ∨ dir = 7 ∨ dir = -9) then []
      else
        let targetPiece := getSq b.squares tSq.toNat
        if targetPiece = EMPTY then
          createMove b square tSq.toNat EMPTY false false ::
            slideGen b us square dir fuel (tSq + dir) (steps + 1)
        else if (targetPiece &&& COLOR_MASK) ≠ us then
          [createMove b square tSq.toNat EMPTY false false]
        else []
    else []

/-- Generate sliding moves (board.js `generateSlidingMoves`,
lines 583-614). -/
def generateSlidingMoves (b : Board) (square : Nat) (directions : List Int) : List Move :=
  directions.flatMap fun dir => slideGen b b.turn square dir 64 ((square : Int) + dir) 1

/-- Generate king moves including castling (board.js `generateKingMoves`,
lines 621-679). -/
def generateKingMoves (b : Board) (square : Nat) : List Move :=
  let us := b.turn
  let regular := QUEEN_DIRECTIONS.flatMap fun dir =>
    let tSq := (square : Int) + dir
    if onBoard tSq then
      let file1 := square % 8
      let file2 := tSq.toNat % 8
      if ((file1 : Int) - file2).natAbs ≤ 1 ∨ dir = 8 ∨ dir = -8 then
        let targetPiece := getSq b.squares tSq.toNat
        if targetPiece = EMPTY ∨ (targetPiece &&& COLOR_MASK) ≠ us then
          [createMove b square tSq.toNat EMPTY false false]
        else []
      else []
    else []
  let castles :=
    if ¬ isInCheck b us then
      if us = WHITE then
        (if b.castlingRights &&& CASTLE_WHITE_KINGSIDE ≠ 0 ∧
            getSq b.squares 5 = EMPTY ∧ getSq b.squares 6 = EMPTY ∧
            ¬ isSquareAttacked b 5 BLACK ∧ ¬ isSquareAttacked b 6 BLACK then
          [createMove b 4 6 EMPTY false true]
        else []) ++
        (if b.castlingRights &&& CASTLE_WHITE_QUEENSIDE ≠ 0 ∧
            getSq b.squares 3 = EMPTY ∧ getSq b.squares 2 = EMPTY ∧
            getSq b.squares 1 = EMPTY ∧
            ¬ isSquareAttacked b 3 BLACK ∧ ¬ isSquareAttacked b 2 BLACK then
          [createMove b 4 2 EMPTY false true]
        else [])
      else
        (if b.castlingRights &&& CASTLE_BLACK_KINGSIDE ≠ 0 ∧
            getSq b.squares 61 = EMPTY ∧ getSq b.squares 62 = EMPTY ∧
            ¬ isSquareAttacked b 61 WHITE ∧ ¬ isSquareAttacked b 62 WHITE then
          [createMove b 60 62 EMPTY false true]
        else []) ++
        (if b.castlingRights &&& CASTLE_BLACK_QUEENSIDE ≠ 0 ∧
            getSq b.squares 59 = EMPTY ∧ getSq b.squares 58 = EMPTY ∧
            getSq b.squares 57 = EMPTY ∧
            ¬ isSquareAttacked b 59 WHITE ∧ ¬ isSquareAttacked b 58 WHITE then
          [createMove b 60 58 EMPTY false true]
        else [])
    else []
  regular ++ castles

/-- The pseudo-legal move list: the generation phase of `getLegalMoves`
(board.js lines 435-470), scanning squares 0..63 in order. -/
def pseudoMoves (b : Board) : List Move :=
  (List.range 64).flatMap fun square =>
    let piece := getSq b.squares square
    if piece = EMPTY ∨ (piece &&& COLOR_MASK) ≠ b.turn then []
    else
      let pieceType := piece &&& PIECE_MASK
      if pieceType = PAWN then generatePawnMoves b square
      else if pieceType = KNIGHT then generateKnightMoves b square
      else if pieceType = BISHOP then generateSlidingMoves b square BISHOP_DIRECTIONS
      else if pieceType = ROOK then generateSlidingMoves b square ROOK_DIRECTIONS
      else if pieceType = QUEEN then generateSlidingMoves b square QUEEN_DIRECTIONS
      else if pieceType = KING then generateKingMoves b square
      else []

/-- The legality filter of `getLegalMoves` (board.js lines 473-478).  The JS
filter callback mutates the board (make, check, unmake), so the board is
threaded through and returned alongside the kept moves. -/
def filterLegal (us : Nat) : Board → List Move → List Move × Board
  | b, [] => ([], b)
  | b, m :: rest =>
    let b1 := makeMove b m
    let inCheck := isInCheck b1 us
    let b2 := (undoMove b1).1
    let res := filterLegal us b2 rest
    (if inCheck then res.1 else m :: res.1, res.2)

/-- All legal moves for the current position (board.js `getLegalMoves`,
lines 435-479), together with the board state after the filter's
make/unmake pairs. -/
def getLegalMoves (b : Board) : List Move × Board :=
  filterLegal b.turn b (pseudoMoves b)

/-! ### Loading a position from its textual form (board.js `loadFromFen`,
lines 144-212) -/

/-- Strip leading and trailing whitespace (JS `String.prototype.trim`). -/
def trimChars (cs : List Char) : List Char :=
  ((cs.dropWhile Char.isWhitespace).reverse.dropWhile Char.isWhitespace).reverse

/-- Split on runs of whitespace, the JS `split(/\s+/)` applied to a trimmed
string (no empty fields remain; an all-whitespace input yields `[]` where JS
yields `['']`, which the caller treats identically via the length check). -/
def splitWsAux : List Char → List Char → List (List Char)
  | [], acc => if acc = [] then [] else [acc.reverse]
  | c :: rest, acc =>
    if c.isWhitespace then
      if acc = [] then splitWsAux rest [] else acc.reverse :: splitWsAux rest []
    else splitWsAux rest (c :: acc)

/-- Whitespace-separated fields of a textual position. -/
def splitWs (cs : List Char) : List (List Char) := splitWsAux cs []

/-- Convert a character of the placement field to a piece code
(board.js `fenCharToPiece`, lines 219-232); unknown characters give
`EMPTY`. -/
def fenCharToPiece (c : Char) : Nat :=
  let isWhite := c.toUpper = c
  let color := if isWhite then WHITE else BLACK
  let lower := c.toLower
  if lower = 'p' then PAWN ||| color
  else if lower = 'n' then KNIGHT ||| color
  else if lower = 'b' then BISHOP ||| color
  else if lower = 'r' then ROOK ||| color
  else if lower = 'q' then QUEEN ||| color
  else if lower = 'k' then KING ||| color
  else EMPTY

/-- One placement row (the inner loop of board.js lines 160-183): digits
1-8 skip files, letters place pieces and track the king caches; the file
counter advances only on non-digit characters. -/
def loadRow : List Char → Nat → Nat → List Nat × Nat × Nat → List Nat × Nat × Nat
  | [], _, _, st => st
  | c :: rest, base, file, st =>
    if '1' ≤ c ∧ c ≤ '8' then loadRow rest base (file + (c.toNat - 48)) st
    else
      let piece := fenCharToPiece c
      let st' :=
        if piece ≠ EMPTY then
          (st.1.set (base + file) piece,
           if piece &&& PIECE_MASK = KING ∧ piece &&& COLOR_MASK = WHITE then base + file
           else st.2.1,
           if piece &&& PIECE_MASK = KING ∧ ¬piece &&& COLOR_MASK = WHITE then base + file
           else st.2.2)
        else st
      loadRow rest base (file + 1) st'

/-- The placement rows, starting at a8 (square 56) and moving down a rank
per row (board.js lines 159-185). -/
def loadRows : List (List Char) → Nat → List Nat × Nat × Nat → List Nat × Nat × Nat
  | [], _, st => st
  | row :: rest, base, st => loadRows rest (base - 8) (loadRow row base 0 st)

/-- Parse a decimal number the way `parseInt(s, 10)` does on the inputs the
loader sees: the value of the leading digit run, and 0 when there is none
(JS would give `NaN`; no claim exercises that corner). -/
def parseNatD (cs : List Char) : Nat :=
  (cs.takeWhile Char.isDigit).foldl (fun n c => n * 10 + (c.toNat - 48)) 0

/-- Parse an algebraic square name (the `SQUARES` table lookup of board.js
line 203); an unknown name gives `-1` (JS would store `undefined`; no claim
exercises that corner). -/
def squareOfName (cs : List Char) : Int :=
  match cs with
  | [f, r] =>
    if 'a' ≤ f ∧ f ≤ 'h' ∧ '1' ≤ r ∧ r ≤ '8' then
      ((r.toNat - 49) * 8 + (f.toNat - 97) : Nat)
    else -1
  | _ => -1

/-- The two error messages `loadFromFen` can throw. -/
def errInvalidFen : List Char := "Invalid FEN string".toList
def errRowsFen : List Char := "Invalid FEN: piece placement must have 8 rows".toList

/-- Load a position from its textual form (board.js `loadFromFen`, lines
144-212).  The JS method mutates `this` step by step and throws on the two
validation checks; the result is the board as left by the call together
with the thrown message, if any.  Note the board is cleared *before* the
8-row check. -/
def loadFromFen (b : Board) (fen : List Char) : Board × Option (List Char) :=
  let parts := splitWs (trimChars fen)
  if parts.length < 4 then (b, some errInvalidFen)
  else
    -- clear the board
    let cleared := List.replicate 64 EMPTY
    -- parse piece placement
    let rows := (parts.getD 0 []).splitOn '/'
    if rows.length ≠ 8 then ({ b with squares := cleared }, some errRowsFen)
    else
      let st := loadRows rows 56 (cleared, b.whiteKingPos, b.blackKingPos)
      -- parse active color
      let turn := if parts.getD 1 [] = ['w'] then WHITE else BLACK
      -- parse castling rights
      let castlingRights :=
        if parts.getD 2 [] ≠ ['-'] then
          (if (parts.getD 2 []).contains 'K' then CASTLE_WHITE_KINGSIDE else 0) |||
          (if (parts.getD 2 []).contains 'Q' then CASTLE_WHITE_QUEENSIDE else 0) |||
          (if (parts.getD 2 []).contains 'k' then CASTLE_BLACK_KINGSIDE else 0) |||
          (if (parts.getD 2 []).contains 'q' then CASTLE_BLACK_QUEENSIDE else 0)
        else 0
      -- parse en passant square
      let enPassantSquare : Int :=
        if parts.getD 3 [] = ['-'] then -1 else squareOfName (parts.getD 3 [])
      -- parse half move clock and full move number if provided
      let halfMoveClock := if parts.length > 4 then parseNatD (parts.getD 4 []) else 0
      let fullMoveNumber := if parts.length > 5 then parseNatD (parts.getD 5 []) else 1
      ({ squares := st.1, turn := turn, castlingRights := castlingRights,
         enPassantSquare := enPassantSquare, halfMoveClock := halfMoveClock,
         fullMoveNumber := fullMoveNumber, whiteKingPos := st.2.1,
         blackKingPos := st.2.2, history := [] }, none)

/-! ### Serializing a position to its textual form (board.js `toFen`,
lines 263-318) and the transposition-table key (engine1.js lines 210-229) -/

/-- Convert a piece code to its placement character (board.js
`pieceToFenChar`, lines 239-257); empty or unknown codes give a dot, which
`toFen` never emits because empties are run-length encoded. -/
def pieceToFenChar (piece : Nat) : Char :=
  if piece = EMPTY then '.'
  else
    let pieceType := piece &&& PIECE_MASK
    let isWhite := (piece &&& COLOR_MASK) = WHITE
    let c :=
      if pieceType = PAWN then 'p'
      else if pieceType = KNIGHT then 'n'
      else if pieceType = BISHOP then 'b'
      else if pieceType = ROOK then 'r'
      else if pieceType = QUEEN then 'q'
      else if pieceType = KING then 'k'
      else '.'
    if c = '.' then '.' else if isWhite then c.toUpper else c

/-- One rank of the placement field (the inner loop of board.js lines
268-290): runs of empties become a digit, pieces become their characters;
`e` is the count of empties pending emission. -/
def fenRankGo : List Nat → Nat → List Char
  | [], e => if e > 0 then [Char.ofNat (48 + e)] else []
  | c :: rest, e =>
    if c = EMPTY then fenRankGo rest (e + 1)
    else (if e > 0 then [Char.ofNat (48 + e)] else []) ++
      (pieceToFenChar c :: fenRankGo rest 0)

/-- The 8 cells of a rank, file 0 to 7. -/
def rankCells (squares : List Nat) (rank : Nat) : List Nat :=
  (List.range 8).map fun file => getSq squares (rank * 8 + file)

/-- The placement field: ranks 8 down to 1 joined by slashes (board.js
lines 267-291). -/
def fenPlacement (squares : List Nat) : List Char :=
  ['/'].intercalate (((List.range 8).reverse).map fun rank =>
    fenRankGo (rankCells squares rank) 0)

/-- The active-colour field (board.js line 294). -/
def fenTurn (turn : Nat) : List Char := if turn = WHITE then ['w'] else ['b']

/-- The castling-rights field (board.js lines 297-302). -/
def fenCastling (r : Nat) : List Char :=
  let cs :=
    (if r &&& CASTLE_WHITE_KINGSIDE ≠ 0 then ['K'] else []) ++
    (if r &&& CASTLE_WHITE_QUEENSIDE ≠ 0 then ['Q'] else []) ++
    (if r &&& CASTLE_BLACK_KINGSIDE ≠ 0 then ['k'] else []) ++
    (if r &&& CASTLE_BLACK_QUEENSIDE ≠ 0 then ['q'] else [])
  if cs = [] then ['-'] else cs

/-- The en-passant field (board.js lines 305-311). -/
def fenEp (e : Int) : List Char :=
  if e ≠ -1 then [Char.ofNat (97 + e.toNat % 8), Char.ofNat (49 + e.toNat / 8)]
  else ['-']

/-- Serialize the position (board.js `toFen`, lines 263-318): six
space-separated fields. -/
def toFen (b : Board) : List Char :=
  fenPlacement b.squares ++
  [' '] ++ fenTurn b.turn ++
  [' '] ++ fenCastling b.castlingRights ++
  [' '] ++ fenEp b.enPassantSquare ++
  [' '] ++ (Nat.repr b.halfMoveClock).toList ++
  [' '] ++ (Nat.repr b.fullMoveNumber).toList

/-- The transposition-table key of a textual position:
`fen.split(' ').slice(0, 4).join(' ')` (engine1.js lines 215 and 226, used
identically by `store` and `lookup`). -/
def ttKey (fen : List Char) : List Char :=
  [' '].intercalate ((fen.splitOn ' ').take 4)

/-! ### Evaluation (engine1.js lines 7-163 and 845-1094) -/

/-- Material values in centipawns (engine1.js `PIECE_VALUES`, lines 8-15).
The JS object lookup is total here with default 0; the engine only reads it
at valid piece kinds. -/
def PIECE_VALUES (pt : Nat) : Int :=
  if pt = PAWN then 100
  else if pt = KNIGHT then 320
  else if pt = BISHOP then 330
  else if pt = ROOK then 500
  else if pt = QUEEN then 900
  else if pt = KING then 20000
  else 0

/-- Middlegame piece-square tables (engine1.js `MG_TABLES`, lines 18-79),
selected by piece kind.  The endgame tables `EG_TABLES` are also read into a
dead local (`egValue`, line 930) that the reference never uses, so they are
not modelled. -/
def MG_TABLES (pt : Nat) : List Int :=
  if pt = PAWN then
    [0, 0, 0, 0, 0, 0, 0, 0,
     50, 50, 50, 50, 50, 50, 50, 50,
     10, 10, 20, 30, 30, 20, 10, 10,
     5, 5, 10, 25, 25, 10, 5, 5,
     0, 0, 0, 20, 20, 0, 0, 0,
     5, -5, -10, 0, 0, -10, -5, 5,
     5, 10, 10, -20, -20, 10, 10, 5,
     0, 0, 0, 0, 0, 0, 0, 0]
  else if pt = KNIGHT then
    [-50, -40, -30, -30, -30, -30, -40, -50,
     -40, -20, 0, 0, 0, 0, -20, -40,
     -30, 0, 10, 15, 15, 10, 0, -30,
     -30, 5, 15, 20, 20, 15, 5, -30,
     -30, 0, 15, 20, 20, 15, 0, -30,
     -30, 5, 10, 15, 15, 10, 5, -30,
     -40, -20, 0, 5, 5, 0, -20, -40,
     -50, -40, -30, -30, -30, -30, -40, -50]
  else if pt = BISHOP then
    [-20, -10, -10, -10, -10, -10, -10, -20,
     -10, 0, 0, 0, 0, 0, 0, -10,
     -10, 0, 10, 10, 10, 10, 0, -10,
     -10, 5, 5, 10, 10, 5, 5, -10,
     -10, 0, 5, 10, 10, 5, 0, -10,
     -10, 5, 5, 5, 5, 5, 5, -10,
     -10, 0, 5, 0, 0, 5, 0, -10,
     -20, -10, -10, -10, -10, -10, -10, -20]
  else if pt = ROOK then
    [0, 0, 0, 0, 0, 0, 0, 0,
     5, 10, 10, 10, 10, 10, 10, 5,
     -5, 0, 0, 0, 0, 0, 0, -5,
     -5, 0, 0, 0, 0, 0, 0, -5,
     -5, 0, 0, 0, 0, 0, 0, -5,
     -5, 0, 0, 0, 0, 0, 0, -5,
     -5, 0, 0, 0, 0, 0, 0, -5,
     0, 0, 5, 5, 5, 5, 0, 0]
  else if pt = QUEEN then
    [-20, -10, -10, -5, -5, -10, -10, -20,
     -10, 0, 0, 0, 0, 0, 0, -10,
     -10, 0, 5, 5, 5, 5, 0, -10,
     -5, 0, 5, 5, 5, 5, 0, -5,
     0, 0, 5, 5, 5, 5, 0, -5,
     -10, 5, 5, 5, 5, 5, 0, -10,
     -10, 0, 5, 0, 0, 0, 0, -10,
     -20, -10, -10, -5, -5, -10, -10, -20]
  else if pt = KING then
    [-30, -40, -40, -50, -50, -40, -40, -30,
     -30, -40, -40, -50, -50, -40, -40, -30,
     -30, -40, -40, -50, -50, -40, -40, -30,
     -30, -40, -40, -50, -50, -40, -40, -30,
     -20, -30, -30, -40, -40, -30, -30, -20,
     -10, -20, -20, -20, -20, -20, -20, -10,
     20, 20, 0, 0, 0, 0, 20, 20,
     20, 30, 10, 0, 0, 10, 30, 20]
  else []

/-- Evaluation bonus constants (engine1.js lines 146-153). -/
def BISHOP_PAIR_BONUS : Int := 50
def MOBILITY_FACTOR : Int := 3
def ROOK_ON_OPEN_FILE_BONUS : Int := 25
def ROOK_ON_SEMI_OPEN_FILE_BONUS : Int := 15
def ROOK_ON_SEVENTH_BONUS : Int := 30
def PASSED_PAWN_BONUS : List Int := [0, 5, 10, 20, 40, 60, 100, 200]
def DOUBLED_PAWN_PENALTY : Int := -15
def ISOLATED_PAWN_PENALTY : Int := -15

/-- Accumulator of the piece loop of `evaluatePosition`
(engine1.js lines 852-937).  Of the per-kind piece counts only the bishop
counts are read later (the bishop-pair bonus), so only those are kept. -/
structure EvalAcc where
  score : Int
  whiteMaterial : Int
  blackMaterial : Int
  whiteBishops : Nat
  blackBishops : Nat
  whitePawns : List Nat
  blackPawns : List Nat
  whitePawnsPerFile : List Nat
  blackPawnsPerFile : List Nat
  whiteRookFiles : List Nat
  blackRookFiles : List Nat

/-- One step of the piece loop of `evaluatePosition`
(engine1.js lines 878-937): material, pawn/rook bookkeeping, and the
midgame piece-square value (the computed `phase` and `egValue` are never
used by the reference and are omitted). -/
def evalPieceStep (squares : List Nat) (acc : EvalAcc) (square : Nat) : EvalAcc :=
  let piece := getSq squares square
  if piece = EMPTY then acc
  else
    let pieceType := piece &&& PIECE_MASK
    let pieceColor := piece &&& COLOR_MASK
    let file := square % 8
    let whiteOrientedSquare := if pieceColor = WHITE then square else 63 - square
    let mgValue := (MG_TABLES pieceType).getD whiteOrientedSquare 0
    if pieceColor = WHITE then
      { acc with
        whiteMaterial := acc.whiteMaterial + PIECE_VALUES pieceType,
        whiteBishops := if pieceType = BISHOP then acc.whiteBishops + 1 else acc.whiteBishops,
        whitePawns := if pieceType = PAWN then acc.whitePawns ++ [square] else acc.whitePawns,
        whitePawnsPerFile :=
          if pieceType = PAWN then
            acc.whitePawnsPerFile.set file (acc.whitePawnsPerFile.getD file 0 + 1)
          else acc.whitePawnsPerFile,
        whiteRookFiles :=
          if pieceType = ROOK then acc.whiteRookFiles ++ [file] else acc.whiteRookFiles,
        score := acc.score + mgValue }
    else
      { acc with
        blackMaterial := acc.blackMaterial + PIECE_VALUES pieceType,
        blackBishops := if pieceType = BISHOP then acc.blackBishops + 1 else acc.blackBishops,
        blackPawns := if pieceType = PAWN then acc.blackPawns ++ [square] else acc.blackPawns,
        blackPawnsPerFile :=
          if pieceType = PAWN then
            acc.blackPawnsPerFile.set file (acc.blackPawnsPerFile.getD file 0 + 1)
          else acc.blackPawnsPerFile,
        blackRookFiles :=
          if pieceType = ROOK then acc.blackRookFiles ++ [file] else acc.blackRookFiles,
        score := acc.score - mgValue }

/-- The doubled-pawn term for one file and one side (engine1.js lines
949-950): `if (count > 1) score += DOUBLED_PAWN_PENALTY * count`.  Note the
penalty is multiplied by the full pawn count of the file, not by the number
of extra pawns. -/
def doubledPawnFileTerm (count : Nat) : Int :=
  if count > 1 then DOUBLED_PAWN_PENALTY * count else 0

/-- The isolated-pawn test for one file (engine1.js lines 953-959). -/
def isolatedOnFile (perFile : List Nat) (file : Nat) : Bool :=
  perFile.getD file 0 > 0 ∧
    (file = 0 ∨ perFile.getD (file - 1) 0 = 0) ∧
    (file = 7 ∨ perFile.getD (file + 1) 0 = 0)

/-- The pawn-structure loop over files (engine1.js lines 947-963): doubled
and isolated pawns for both sides, white adding and black subtracting. -/
def pawnStructureScore (wFile bFile : List Nat) : Int :=
  (List.range 8).foldl
    (fun sc file =>
      let sc := sc + doubledPawnFileTerm (wFile.getD file 0)
      let sc := sc - doubledPawnFileTerm (bFile.getD file 0)
      let sc := sc + (if isolatedOnFile wFile file then ISOLATED_PAWN_PENALTY else 0)
      sc + (if isolatedOnFile bFile file then -ISOLATED_PAWN_PENALTY else 0))
    0

/-- Whether a white pawn on `square` is passed (engine1.js lines 966-981):
no black pawn on the same or an adjacent file on any higher rank. -/
def whitePassed (squares : List Nat) (square : Nat) : Bool :=
  let file := square % 8
  let rank := square / 8
  (List.range 8).all fun f =>
    if max 0 (file - 1) ≤ f ∧ f ≤ min 7 (file + 1) then
      (List.range 8).all fun r =>
        if rank + 1 ≤ r then getSq squares (r * 8 + f) ≠ PAWN ||| BLACK else true
    else true

/-- Whether a black pawn on `square` is passed (engine1.js lines 988-1003):
no white pawn on the same or an adjacent file on any lower rank. -/
def blackPassed (squares : List Nat) (square : Nat) : Bool :=
  let file := square % 8
  let rank := square / 8
  (List.range 8).all fun f =>
    if max 0 (file - 1) ≤ f ∧ f ≤ min 7 (file + 1) then
      (List.range 8).all fun r =>
        if r < rank then getSq squares (r * 8 + f) ≠ PAWN ||| WHITE else true
    else true

/-- Whether a file holds no pawn at all (the `isOpen` flag of engine1.js
lines 1011-1036: any pawn of either colour clears it before the loop can
break). -/
def fileOpen (squares : List Nat) (file : Nat) : Bool :=
  (List.range 8).all fun rank =>
    let piece := getSq squares (rank * 8 + file)
    (piece &&& PIECE_MASK) ≠ PAWN ∨ piece = EMPTY

/-- Whether a file holds no pawn of `color` (the `isSemiOpen` flag of
engine1.js lines 1011-1036: it is cleared exactly when an own pawn is
found, which is also the only break). -/
def fileSemiOpenFor (squares : List Nat) (file color : Nat) : Bool :=
  (List.range 8).all fun rank =>
    let piece := getSq squares (rank * 8 + file)
    ¬(piece ≠ EMPTY ∧ (piece &&& PIECE_MASK) = PAWN ∧ (piece &&& COLOR_MASK) = color)

/-- Static evaluation (engine1.js `evaluatePosition`, lines 845-1094).
The JS method mutates `this.board.turn` for the mobility term; the returned
pair is (score, board after the call). -/
def evaluatePosition (b : Board) : Int × Board :=
  let us := b.turn
  let acc0 : EvalAcc :=
    { score := 0, whiteMaterial := 0, blackMaterial := 0,
      whiteBishops := 0, blackBishops := 0, whitePawns := [], blackPawns := [],
      whitePawnsPerFile := List.replicate 8 0, blackPawnsPerFile := List.replicate 8 0,
      whiteRookFiles := [], blackRookFiles := [] }
  let acc := (List.range 64).foldl (evalPieceStep b.squares) acc0
  -- bishop pair bonus
  let score := acc.score
    + (if acc.whiteBishops ≥ 2 then BISHOP_PAIR_BONUS else 0)
    - (if acc.blackBishops ≥ 2 then BISHOP_PAIR_BONUS else 0)
  -- material score
  let score := score + acc.whiteMaterial - acc.blackMaterial
  -- pawn structure evaluation
  let score := score + pawnStructureScore acc.whitePawnsPerFile acc.blackPawnsPerFile
  -- passed pawns
  let score := score + (acc.whitePawns.foldl
    (fun sc square =>
      if whitePassed b.squares square then sc + PASSED_PAWN_BONUS.getD (square / 8) 0
      else sc) 0)
  let score := score - (acc.blackPawns.foldl
    (fun sc square =>
      if blackPassed b.squares square then sc + PASSED_PAWN_BONUS.getD (7 - square / 8) 0
      else sc) 0)
  -- rook on open file
  let score := score + (acc.whiteRookFiles.foldl
    (fun sc file =>
      if fileOpen b.squares file then sc + ROOK_ON_OPEN_FILE_BONUS
      else if fileSemiOpenFor b.squares file WHITE then sc + ROOK_ON_SEMI_OPEN_FILE_BONUS
      else sc) 0)
  let score := score - (acc.blackRookFiles.foldl
    (fun sc file =>
      if fileOpen b.squares file then sc + ROOK_ON_OPEN_FILE_BONUS
      else if fileSemiOpenFor b.squares file BLACK then sc + ROOK_ON_SEMI_OPEN_FILE_BONUS
      else sc) 0)
  -- rook on 7th rank (checks the 7th-rank square of each rook's file)
  let score := score + (acc.whiteRookFiles.foldl
    (fun sc file =>
      if getSq b.squares (6 * 8 + file) = ROOK ||| WHITE then sc + ROOK_ON_SEVENTH_BONUS
      else sc) 0)
  let score := score - (acc.blackRookFiles.foldl
    (fun sc file =>
      if getSq b.squares (1 * 8 + file) = ROOK ||| BLACK then sc + ROOK_ON_SEVENTH_BONUS
      else sc) 0)
  -- mobility evaluation: flip the side to move, generate for both sides
  let res1 := getLegalMoves { b with turn := WHITE }
  let res2 := getLegalMoves { res1.2 with turn := BLACK }
  -- restore the original turn
  let bOut := { res2.2 with turn := us }
  let score := score + MOBILITY_FACTOR * ((res1.1.length : Int) - (res2.1.length : Int))
  -- convert the score to the current player's perspective
  (if us = WHITE then score else -score, bOut)

/-! ### Search constants and the transposition-table store flag
(engine1.js lines 190-199 and 457-575) -/

def MAX_PLY : Nat := 64
def INFINITY : Int := 30000
def MATE_VALUE : Int := 20000
def MATE_THRESHOLD : Int := 19000

/-- Transposition table flags (engine1.js lines 197-199): exact score,
upper bound (fail low), lower bound (fail high). -/
def TT_EXACT : Nat := 0
def TT_ALPHA : Nat := 1
def TT_BETA : Nat := 2

/-- The move loop of `alphaBeta` (engine1.js lines 507-560) with the child
scores abstracted as the list `scores` (each entry the value of
`-this.alphaBeta(...)` for one move): `bestScore` and `alpha` evolve
exactly as in the loop, including the break on `alpha >= beta`.  Returns
`(bestScore, alpha)` at loop exit. -/
def searchLoopScores (beta : Int) : List Int → Int → Int → Int × Int
  | [], alpha, bestScore => (bestScore, alpha)
  | s :: rest, alpha, bestScore =>
    if s > bestScore then
      if s > alpha then
        if s ≥ beta then (s, s)
        else searchLoopScores beta rest s s
      else searchLoopScores beta rest alpha s
    else searchLoopScores beta rest alpha bestScore

/-- The flag stored in the transposition table after the loop (engine1.js
lines 563-564): `bestScore <= alpha ? TT_ALPHA : bestScore >= beta ?
TT_BETA : TT_EXACT`, where `alpha` is the loop-updated value, not the
incoming window bound. -/
def ttStoreFlag (alphaIn beta : Int) (scores : List Int) : Nat :=
  let r := searchLoopScores beta scores alphaIn (-INFINITY)
  if r.1 ≤ r.2 then TT_ALPHA else if r.1 ≥ beta then TT_BETA else TT_EXACT

/-- The loop keeps `bestScore ≤ alpha` whenever it starts that way: alpha
is raised to every score that improves bestScore beyond it. -/
theorem searchLoopScores_le (beta : Int) :
    ∀ (scores : List Int) (alpha best : Int), best ≤ alpha →
      (searchLoopScores beta scores alpha best).1 ≤
        (searchLoopScores beta scores alpha best).2
  | [], alpha, best, h => by simpa [searchLoopScores] using h
  | s :: rest, alpha, best, h => by
    unfold searchLoopScores
    by_cases h1 : s > best
    · rw [if_pos h1]
      by_cases h2 : s > alpha
      · rw [if_pos h2]
        by_cases h3 : s ≥ beta
        · rw [if_pos h3]
        · rw [if_neg h3]
          exact searchLoopScores_le beta rest s s le_rfl
      · rw [if_neg h2]
        exact searchLoopScores_le beta rest alpha s (by omega)
    · rw [if_neg h1]
      exact searchLoopScores_le beta rest alpha best h

/-! ### The engine driver (engine1.js lines 167-843)

The `ChessEngine2` object becomes the `Engine` record below.  Wall-clock
reads (`Date.now()`) are modelled by an oracle `times : Nat → Nat` carried
in the record together with a counter `clock`: the k-th call of `Date.now()`
during a run returns `times k`.  Recursive searches take a structural fuel
argument; every call site passes fuel at least `depth + 1` (for the
alpha-beta search, whose recursion strictly decreases `depth`) or 128 (for
the quiescence search, whose recursion length is bounded by one phantom
en-passant capture plus the at most 63 occupied squares a capture chain can
consume), so the fuel-exhausted branch is never reached. -/

/-- A transposition table entry (engine1.js lines 216-222). -/
structure TTEntry where
  depth : Nat
  value : Int
  flag : Nat
  bestMove : Option Move
  age : Nat

/-- The transposition table (engine1.js `TranspositionTable`, lines
204-256): a JS `Map`, modelled as an association list in insertion order
(updates keep the original position, inserts append). -/
structure TTable where
  table : List (List Char × TTEntry)
  maxSize : Nat

/-- Map.set: update in place or append. -/
def mapSet : List (List Char × TTEntry) → List Char → TTEntry →
    List (List Char × TTEntry)
  | [], k, v => [(k, v)]
  | kv :: rest, k, v =>
    if kv.1 = k then (k, v) :: rest else kv :: mapSet rest k v

/-- Insertion into a list sorted ascending by `depth - 2*age`, after equal
keys (so the overall sort is stable, as the JS engines' `Array.sort`
is). -/
def ttInsertAsc (kv : List Char × TTEntry) :
    List (List Char × TTEntry) → List (List Char × TTEntry)
  | [] => [kv]
  | x :: xs =>
    if (kv.2.depth : Int) - 2 * kv.2.age < (x.2.depth : Int) - 2 * x.2.age then
      kv :: x :: xs
    else x :: ttInsertAsc kv xs

/-- Stable sort ascending by `depth - 2*age` (the comparator of engine1.js
lines 240-244). -/
def ttSortAsc : List (List Char × TTEntry) → List (List Char × TTEntry)
  | [] => []
  | x :: xs => ttInsertAsc x (ttSortAsc xs)

/-- `TranspositionTable.clear(0.5)` (engine1.js lines 230-255): sort the
entries ascending by `depth - 2*age`, delete the first half (floor), then
age the survivors. -/
def ttClearHalf (table : List (List Char × TTEntry)) :
    List (List Char × TTEntry) :=
  let toRemove := ((ttSortAsc table).take (table.length / 2)).map (·.1)
  (table.filter (fun kv => ¬ toRemove.contains kv.1)).map
    (fun kv => (kv.1, { kv.2 with age := kv.2.age + 1 }))

/-- `TranspositionTable.store` (engine1.js lines 210-223). -/
def ttStore (tt : TTable) (fen : List Char) (depth : Nat) (value : Int)
    (flag : Nat) (bestMove : Option Move) : TTable :=
  let tt :=
    if tt.table.length ≥ tt.maxSize then { tt with table := ttClearHalf tt.table }
    else tt
  { tt with table := mapSet tt.table (ttKey fen) ⟨depth, value, flag, bestMove, 0⟩ }

/-- `TranspositionTable.lookup` (engine1.js lines 225-228). -/
def ttLookup (tt : TTable) (fen : List Char) : Option TTEntry :=
  (tt.table.find? (fun kv => kv.1 = ttKey fen)).map (·.2)

/-- `HistoryTable.update` (engine1.js lines 274-287): add `depth²` at
`from*64 + to`, then decay every entry by ×0.75 (floor; all entries stay
nonnegative, so JS `Math.floor(x * 0.75)` is `3 * x / 4`) once the updated
entry exceeds 1,000,000. -/
def historyUpdate (h : Nat → Int) (f t depth : Nat) : Nat → Int :=
  let idx := f * 64 + t
  let h2 : Nat → Int := fun i => if i = idx then h i + (depth : Int) * depth else h i
  if h2 idx > 1000000 then fun i => h2 i * 3 / 4 else h2

/-- The engine state (engine1.js constructor, lines 294-316), plus the
wall-clock oracle `times` and its counter `clock`. -/
structure Engine where
  board : Board
  timeLimit : Nat
  maxDepth : Nat
  evaluations : Nat
  nodesSearched : Nat
  startTime : Nat
  timeCheckInterval : Nat
  transpositionTable : TTable
  historyT : Nat → Int
  killerMoves : List (Option Move)
  searchAborted : Bool
  times : Nat → Nat
  clock : Nat

/-- One `Date.now()` read. -/
def now (e : Engine) : Nat × Engine :=
  (e.times e.clock, { e with clock := e.clock + 1 })

/-- `checkTime` (engine1.js lines 831-840): count the node and poll the
clock every `timeCheckInterval` nodes, setting the sticky abort flag once
the elapsed time exceeds the limit. -/
def checkTime (e : Engine) : Engine :=
  let e := { e with nodesSearched := e.nodesSearched + 1 }
  if e.nodesSearched % e.timeCheckInterval = 0 then
    let r := now e
    if r.1 - r.2.startTime > r.2.timeLimit then { r.2 with searchAborted := true }
    else r.2
  else e

/-- Piece counts for `isDraw` (the loop of engine1.js lines 750-781). -/
structure DrawAcc where
  wp : Nat
  wn : Nat
  wb : Nat
  wr : Nat
  wq : Nat
  bp : Nat
  bn : Nat
  bb : Nat
  br : Nat
  bq : Nat
  wBishopColor : Int
  bBishopColor : Int

/-- One square of the `isDraw` counting loop. -/
def drawStep (squares : List Nat) (acc : DrawAcc) (square : Nat) : DrawAcc :=
  let piece := getSq squares square
  if piece = EMPTY then acc
  else
    let pieceType := piece &&& PIECE_MASK
    let pieceColor := piece &&& COLOR_MASK
    if pieceType = KING then acc
    else if pieceColor = WHITE then
      { acc with
        wp := if pieceType = PAWN then acc.wp + 1 else acc.wp,
        wn := if pieceType = KNIGHT then acc.wn + 1 else acc.wn,
        wb := if pieceType = BISHOP then acc.wb + 1 else acc.wb,
        wr := if pieceType = ROOK then acc.wr + 1 else acc.wr,
        wq := if pieceType = QUEEN then acc.wq + 1 else acc.wq,
        wBishopColor :=
          if pieceType = BISHOP then ((square / 8 + square % 8) % 2 : Nat)
          else acc.wBishopColor }
    else
      { acc with
        bp := if pieceType = PAWN then acc.bp + 1 else acc.bp,
        bn := if pieceType = KNIGHT then acc.bn + 1 else acc.bn,
        bb := if pieceType = BISHOP then acc.bb + 1 else acc.bb,
        br := if pieceType = ROOK then acc.br + 1 else acc.br,
        bq := if pieceType = QUEEN then acc.bq + 1 else acc.bq,
        bBishopColor :=
          if pieceType = BISHOP then ((square / 8 + square % 8) % 2 : Nat)
          else acc.bBishopColor }

/-- Draw detection (engine1.js `isDraw`, lines 742-826): fifty-move rule
and the insufficient-material cases. -/
def isDraw (b : Board) : Bool :=
  if b.halfMoveClock ≥ 100 then true
  else
    let a := (List.range 64).foldl (drawStep b.squares)
      ⟨0, 0, 0, 0, 0, 0, 0, 0, 0, 0, -1, -1⟩
    let whiteNone := a.wp = 0 ∧ a.wn = 0 ∧ a.wb = 0 ∧ a.wr = 0 ∧ a.wq = 0
    let blackNone := a.bp = 0 ∧ a.bn = 0 ∧ a.bb = 0 ∧ a.br = 0 ∧ a.bq = 0
    let whiteTotal := a.wp + a.wn + a.wb + a.wr + a.wq
    let blackTotal := a.bp + a.bn + a.bb + a.br + a.bq
    -- king vs king
    (whiteNone ∧ blackNone) ∨
    -- king and bishop vs king
    (whiteTotal = 1 ∧ a.wb = 1 ∧ blackNone) ∨
    (blackTotal = 1 ∧ a.bb = 1 ∧ whiteNone) ∨
    -- king and knight vs king
    (whiteTotal = 1 ∧ a.wn = 1 ∧ blackNone) ∨
    (blackTotal = 1 ∧ a.bn = 1 ∧ whiteNone) ∨
    -- king and bishop vs king and bishop on the same colour complex
    (a.wb = 1 ∧ a.bb = 1 ∧ a.wBishopColor = a.bBishopColor ∧
      a.wp = 0 ∧ a.wn = 0 ∧ a.wr = 0 ∧ a.wq = 0 ∧
      a.bp = 0 ∧ a.bn = 0 ∧ a.br = 0 ∧ a.bq = 0)

/-- Whether two moves share the from- and to-square (the JS comparisons
`a.from === b.from && a.to === b.to`). -/
def sameFromTo (a b : Move) : Bool :=
  decide (a.fromSq = b.fromSq ∧ a.toSq = b.toSq)

/-- Whether a killer slot matches the move (engine1.js `isKillerMove`,
lines 692-699). -/
def isKillerMove (e : Engine) (m : Move) (ply : Nat) : Bool :=
  let k1 := e.killerMoves.getD (ply * 2) none
  let k2 := e.killerMoves.getD (ply * 2 + 1) none
  (match k1 with
   | some k => sameFromTo k m
   | none => false) ||
  (match k2 with
   | some k => sameFromTo k m
   | none => false)

/-- Record a quiet beta-cutoff move as a killer (engine1.js
`recordKillerMove`, lines 669-687). -/
def recordKillerMove (e : Engine) (m : Move) (ply : Nat) : Engine :=
  if m.captured ≠ EMPTY then e
  else
    let k0 := e.killerMoves.getD (ply * 2) none
    if (match k0 with
        | some k => sameFromTo k m
        | none => false) then e
    else
      { e with killerMoves := (e.killerMoves.set (ply * 2 + 1) k0).set (ply * 2) (some m) }

/-- Score one move for ordering (engine1.js lines 633-660). -/
def scoreMove (e : Engine) (ttMove : Option Move) (ply : Nat) (m : Move) : Move :=
  let score : Int :=
    if (match ttMove with
        | some tm => sameFromTo m tm
        | none => false) then 2000000
    else if m.captured ≠ EMPTY then
      1000000 + 10 * PIECE_VALUES (m.captured &&& PIECE_MASK) -
        PIECE_VALUES (m.piece &&& PIECE_MASK)
    else if m.promotion ≠ EMPTY then 900000 + PIECE_VALUES m.promotion
    else if isKillerMove e m ply then 800000
    else e.historyT (m.fromSq * 64 + m.toSq)
  { m with score := score }

/-- Stable insertion for the descending sort: a move goes before the first
strictly smaller score and after equal scores, reproducing the stable JS
`Array.sort` with comparator `b.score - a.score`. -/
def insertDesc (m : Move) : List Move → List Move
  | [] => [m]
  | x :: xs => if m.score ≥ x.score then m :: x :: xs else x :: insertDesc m xs

/-- Stable descending sort by score. -/
def sortDesc : List Move → List Move
  | [] => []
  | x :: xs => insertDesc x (sortDesc xs)

/-- Order moves (engine1.js `orderMoves`, lines 632-664). -/
def orderMoves (e : Engine) (moves : List Move) (ttMove : Option Move)
    (ply : Nat) : List Move :=
  sortDesc (moves.map (scoreMove e ttMove ply))

/-- The capture loop of the quiescence search (engine1.js lines 602-624);
`q` is the recursive call at the next lower fuel. -/
def quiesLoop (q : Engine → Int → Int → Int × Engine) (beta : Int) :
    Engine → List Move → Int → Int × Engine
  | e, [], alpha => (alpha, e)
  | e, m :: rest, alpha =>
    let e := { e with board := makeMove e.board m }
    let r := q e (-beta) (-alpha)
    let score := -r.1
    let e := { r.2 with board := (undoMove r.2.board).1 }
    if e.searchAborted then (0, e)
    else
      if score > alpha then
        if score ≥ beta then (score, e)
        else quiesLoop q beta e rest score
      else quiesLoop q beta e rest alpha

/-- Quiescence search (engine1.js `quiescenceSearch`, lines 580-627). -/
def quiescence : Nat → Engine → Int → Int → Int × Engine
  | 0, e, _, _ => (0, e)
  | fuel + 1, e, alpha, beta =>
    let e := { e with evaluations := e.evaluations + 1 }
    let e := checkTime e
    let r := evaluatePosition e.board
    let standPat := r.1
    let e := { e with board := r.2 }
    if standPat ≥ beta then (beta, e)
    else
      let alpha := if standPat > alpha then standPat else alpha
      let g := getLegalMoves e.board
      let e := { e with board := g.2 }
      let moves := orderMoves e (g.1.filter (fun m => m.captured ≠ EMPTY)) none 0
      quiesLoop (quiescence fuel) beta e moves alpha

/-- The result of the alpha-beta move loop: `none` when the loop returned 0
on abort, otherwise the final `(bestScore, alpha, bestMove)` for the
transposition-table store. -/
def ABLoopRes := Option (Int × Int × Option Move)

/-- The move loop of `alphaBeta` (engine1.js lines 507-560); `ab` is the
recursive call at the next lower fuel. -/
def abLoop (ab : Engine → Nat → Int → Int → Nat → Int × Engine)
    (depth : Nat) (beta : Int) (ply : Nat) :
    Engine → List Move → Int → Int → Option Move → Nat → ABLoopRes × Engine
  | e, [], alpha, bestScore, bestMove, _ => (some (bestScore, alpha, bestMove), e)
  | e, m :: rest, alpha, bestScore, bestMove, movesSearched =>
    let e := { e with board := makeMove e.board m }
    -- late move reduction for quiet moves after 4 searched moves
    let lmr := movesSearched ≥ 4 ∧ depth ≥ 3 ∧
      ¬ isInCheck e.board e.board.turn ∧ m.captured = EMPTY ∧ m.promotion = EMPTY
    let se :=
      if lmr then
        let r1 := ab e (depth - 2) (-alpha - 1) (-alpha) (ply + 1)
        let score := -r1.1
        if score > alpha then
          let r2 := ab r1.2 (depth - 1) (-beta) (-alpha) (ply + 1)
          (-r2.1, r2.2)
        else (score, r1.2)
      else
        let r := ab e (depth - 1) (-beta) (-alpha) (ply + 1)
        (-r.1, r.2)
    let score := se.1
    let e := { se.2 with board := (undoMove se.2.board).1 }
    if e.searchAborted then (none, e)
    else
      let movesSearched := movesSearched + 1
      if score > bestScore then
        let bestScore := score
        let bestMove := some m
        if score > alpha then
          let alpha := score
          if alpha ≥ beta then
            -- record killer moves and update history for quiet moves
            let e :=
              if m.captured = EMPTY then
                let e := recordKillerMove e m ply
                { e with historyT := historyUpdate e.historyT m.fromSq m.toSq depth }
              else e
            (some (bestScore, alpha, bestMove), e)
          else abLoop ab depth beta ply e rest alpha bestScore bestMove movesSearched
        else abLoop ab depth beta ply e rest alpha bestScore bestMove movesSearched
      else abLoop ab depth beta ply e rest alpha bestScore bestMove movesSearched

/-- Alpha-beta search (engine1.js `alphaBeta`, lines 457-575). -/
def alphaBeta : Nat → Engine → Nat → Int → Int → Nat → Int × Engine
  | 0, e, _, _, _, _ => (0, e)
  | fuel + 1, e, depth, alpha, beta, ply =>
    -- periodically check for time
    let e := checkTime e
    -- base case: evaluate position
    if depth ≤ 0 then quiescence 128 e alpha beta
    else if isDraw e.board then (0, e)
    else
      -- check transposition table
      let ttEntry := ttLookup e.transpositionTable (toFen e.board)
      let ttCut : Option Int :=
        match ttEntry with
        | some en =>
          if en.depth ≥ depth then
            if en.flag = TT_EXACT then some en.value
            else if en.flag = TT_ALPHA ∧ en.value ≤ alpha then some alpha
            else if en.flag = TT_BETA ∧ en.value ≥ beta then some beta
            else none
          else none
        | none => none
      match ttCut with
      | some v => (v, e)
      | none =>
        let g := getLegalMoves e.board
        let e := { e with board := g.2 }
        if g.1 = [] then
          if isInCheck e.board e.board.turn then (-MATE_VALUE + ply, e) else (0, e)
        else
          -- null move pruning
          let nullRes : Option Int × Engine :=
            if depth ≥ 3 ∧ ¬ isInCheck e.board e.board.turn ∧
                hasNonPawnMaterial e.board then
              let e := { e with board := makeNullMove e.board }
              let r := alphaBeta fuel e (depth - 3) (-beta) (-beta + 1) (ply + 1)
              let nullScore := -r.1
              let e := { r.2 with board := undoNullMove r.2.board }
              if nullScore ≥ beta then (some beta, e) else (none, e)
            else (none, e)
          match nullRes.1 with
          | some v => (v, nullRes.2)
          | none =>
            let e := nullRes.2
            let ttMove : Option Move :=
              match ttEntry with
              | some en => en.bestMove
              | none => none
            let moves := orderMoves e g.1 ttMove ply
            let lr := abLoop (alphaBeta fuel) depth beta ply e moves alpha
              (-INFINITY) none 0
            match lr.1 with
            | none => (0, lr.2)
            | some (bestScore, alphaF, bestMove) =>
              let flag :=
                if bestScore ≤ alphaF then TT_ALPHA
                else if bestScore ≥ beta then TT_BETA
                else TT_EXACT
              let e := lr.2
              let e := { e with transpositionTable :=
                (ttStore e.transpositionTable (toFen e.board) depth bestScore
                  flag bestMove) }
              (bestScore, e)

/-- The root move loop (engine1.js lines 426-449). -/
def rootLoop (depth : Nat) (beta : Int) :
    Engine → List Move → Int → Int → Option Move → (Int × Option Move) × Engine
  | e, [], _, bestScore, bestMove => ((bestScore, bestMove), e)
  | e, m :: rest, alpha, bestScore, bestMove =>
    let e := { e with board := makeMove e.board m }
    let r := alphaBeta depth e (depth - 1) (-beta) (-alpha) 1
    let score := -r.1
    let e := { r.2 with board := (undoMove r.2.board).1 }
    if e.searchAborted then ((bestScore, bestMove), e)
    else
      if score > bestScore then
        let bestScore := score
        let bestMove := some m
        if score > alpha then rootLoop depth beta e rest score bestScore bestMove
        else rootLoop depth beta e rest alpha bestScore bestMove
      else rootLoop depth beta e rest alpha bestScore bestMove

/-- Root alpha-beta search (engine1.js `rootAlphaBeta`, lines 409-452). -/
def rootAlphaBeta (e : Engine) (depth : Nat) (alpha beta : Int) :
    (Int × Option Move) × Engine :=
  let g := getLegalMoves e.board
  let e := { e with board := g.2 }
  if g.1 = [] then
    if isInCheck e.board e.board.turn then ((-MATE_VALUE, none), e)
    else ((0, none), e)
  else
    let moves := orderMoves e g.1 none 0
    rootLoop depth beta e moves alpha (-INFINITY) none

/-- One full-width search at a given depth (engine1.js `search`, lines
399-404). -/
def searchAtDepth (e : Engine) (depth : Nat) : (Int × Option Move) × Engine :=
  rootAlphaBeta e depth (-INFINITY) INFINITY

/-- The opening book (engine1.js `OPENING_BOOK`, lines 167-188). -/
def OPENING_BOOK : List (List Char × List (List Char)) :=
  [("rnbqkbnr/pppppppp/8/8/8/8/PPPPPPPP/RNBQKBNR w KQkq - 0 1".toList,
    ["e2e4".toList, "d2d4".toList, "c2c4".toList, "g1f3".toList]),
   ("rnbqkbnr/pppppppp/8/8/4P3/8/PPPP1PPP/RNBQKBNR b KQkq e3 0 1".toList,
    ["e7e5".toList, "c7c5".toList, "e7e6".toList, "c7c6".toList, "d7d5".toList]),
   ("rnbqkbnr/pppppppp/8/8/3P4/8/PPP1PPPP/RNBQKBNR b KQkq d3 0 1".toList,
    ["d7d5".toList, "g8f6".toList, "e7e6".toList, "c7c5".toList]),
   ("rnbqkbnr/pppppppp/8/8/2P5/8/PP1PPPPP/RNBQKBNR b KQkq c3 0 1".toList,
    ["e7e5".toList, "g8f6".toList, "c7c5".toList, "g7g6".toList]),
   ("rnbqkbnr/pppppppp/8/8/8/5N2/PPPPPPPP/RNBQKB1R b KQkq - 1 1".toList,
    ["d7d5".toList, "g8f6".toList, "c7c5".toList, "g7g6".toList])]

/-- Book lookup by the full textual position. -/
def bookLookup (fen : List Char) : Option (List (List Char)) :=
  (OPENING_BOOK.find? (fun kv => kv.1 = fen)).map (·.2)

/-- Format a move in long algebraic notation (board.js `moveToUci`, lines
901-923). -/
def moveToUci (m : Move) : List Char :=
  [Char.ofNat (97 + m.fromSq % 8), Char.ofNat (49 + m.fromSq / 8),
   Char.ofNat (97 + m.toSq % 8), Char.ofNat (49 + m.toSq / 8)] ++
  (if m.promotion ≠ EMPTY then
    if m.promotion = QUEEN then ['q']
    else if m.promotion = ROOK then ['r']
    else if m.promotion = BISHOP then ['b']
    else if m.promotion = KNIGHT then ['n']
    else []
  else [])

/-- The iterative deepening loop of `getBestMove` (engine1.js lines
369-391); `fuel` bounds the remaining iterations by `maxDepth`.  Stops on
abort (discarding that iteration's result), on a mate score, or when more
than three quarters of the time limit has elapsed (`elapsed > 0.75*t`
compared as `4*elapsed > 3*t`, exact for the sizes involved). -/
def idLoop : Nat → Engine → Nat → Option Move → Option Move × Engine
  | 0, e, _, best => (best, e)
  | fuel + 1, e, depth, best =>
    if depth > e.maxDepth then (best, e)
    else
      let r := searchAtDepth e depth
      let e := r.2
      if e.searchAborted then (best, e)
      else
        let best := r.1.2
        if (r.1.1.natAbs : Int) > MATE_THRESHOLD then (best, e)
        else
          let t := now e
          let e := t.2
          if 4 * (t.1 - e.startTime) > 3 * e.timeLimit then (best, e)
          else idLoop fuel e (depth + 1) best

/-- The statistics reset at the top of `getBestMove` (engine1.js lines
348-351): zero the counters, clear the abort flag and stamp the start
time. -/
def searchSetup (e : Engine) : Engine :=
  let e := { e with evaluations := 0, nodesSearched := 0, searchAborted := false }
  let t := now e
  { t.2 with startTime := t.1 }

/-- The move-ordering reset of `getBestMove` (engine1.js lines 362-363):
clear the history table and the killer slots. -/
def orderingReset (e : Engine) : Engine :=
  { e with historyT := (fun _ => 0),
           killerMoves := List.replicate (MAX_PLY * 2) none }

/-- Find the best move (engine1.js `getBestMove`, lines 347-394).
`randIdx` abstracts the `Math.floor(Math.random() * moves.length)` book
pick: the chosen index is `randIdx % moves.length`. -/
def getBestMove (e : Engine) (randIdx : Nat) : Option (List Char) × Engine :=
  let e := searchSetup e
  -- check opening book first
  match bookLookup (toFen e.board) with
  | some moves => (some (moves.getD (randIdx % moves.length) []), e)
  | none =>
    -- reset move ordering data
    let e := orderingReset e
    let r := idLoop e.maxDepth e 1 none
    (r.1.map moveToUci, r.2)

/-- A fresh engine on a board (engine1.js constructor, lines 294-316),
with the given time limit, depth limit and clock oracle. -/
def mkEngine (b : Board) (timeLimit maxDepth : Nat) (times : Nat → Nat) : Engine :=
  { board := b, timeLimit := timeLimit, maxDepth := maxDepth,
    evaluations := 0, nodesSearched := 0, startTime := 0,
    timeCheckInterval := 1000,
    transpositionTable := { table := [], maxSize := 1000000 },
    historyT := (fun _ => 0),
    killerMoves := List.replicate (MAX_PLY * 2) none,
    searchAborted := false, times := times, clock := 0 }

/-! ### Concrete positions used by the theorems -/

/-- The standard starting position as set up by `setupInitialPosition`
(board.js lines 91-138). -/
def initialBoard : Board :=
  { squares :=
      [12, 10, 11, 13, 14, 11, 10, 12,
       9, 9, 9, 9, 9, 9, 9, 9,
       0, 0, 0, 0, 0, 0, 0, 0,
       0, 0, 0, 0, 0, 0, 0, 0,
       0, 0, 0, 0, 0, 0, 0, 0,
       0, 0, 0, 0, 0, 0, 0, 0,
       17, 17, 17, 17, 17, 17, 17, 17,
       20, 18, 19, 21, 22, 19, 18, 20],
    turn := WHITE, castlingRights := 15, enPassantSquare := -1,
    halfMoveClock := 0, fullMoveNumber := 1,
    whiteKingPos := 4, blackKingPos := 60, history := [] }

/-- The double pawn push e2e4 as generated from the starting position. -/
def moveE2E4 : Move := createMove initialBoard 12 28 EMPTY false false

/-- The position after 1.e4: black to move, en passant target e3
(square 20). -/
def afterE4 : Board := makeMove initialBoard moveE2E4

/-- A reachable position with white rook a1, white king e1, black rook a8,
black king e8, castling rights Qq, white to move (textual form
`r3k3/8/8/8/8/8/8/R3K3 w Qq - 0 1`). -/
def c2Board : Board :=
  { squares :=
      [12, 0, 0, 0, 14, 0, 0, 0,
       0, 0, 0, 0, 0, 0, 0, 0,
       0, 0, 0, 0, 0, 0, 0, 0,
       0, 0, 0, 0, 0, 0, 0, 0,
       0, 0, 0, 0, 0, 0, 0, 0,
       0, 0, 0, 0, 0, 0, 0, 0,
       0, 0, 0, 0, 0, 0, 0, 0,
       20, 0, 0, 0, 22, 0, 0, 0],
    turn := WHITE,
    castlingRights := CASTLE_WHITE_QUEENSIDE ||| CASTLE_BLACK_QUEENSIDE,
    enPassantSquare := -1, halfMoveClock := 0, fullMoveNumber := 1,
    whiteKingPos := 4, blackKingPos := 60, history := [] }

/-- The capture Ra1xa8 on `c2Board`, as generated by the move generator. -/
def moveRa1a8 : Move := createMove c2Board 0 56 EMPTY false false

/-! ### List update lemmas and the make/unmake round trip -/

attribute [ext] Board

theorem getSq_set_self (l : List Nat) (i v : Nat) (h : i < l.length) :
    getSq (l.set i v) i = v := by
  simp [getSq, List.getD_eq_getElem?_getD, List.getElem?_set, h]

theorem getSq_set_ne (l : List Nat) (i j v : Nat) (h : i ≠ j) :
    getSq (l.set i v) j = getSq l j := by
  simp [getSq, List.getD_eq_getElem?_getD, List.getElem?_set, h]

theorem roundtrip_basic (s : List Nat) (f t v p c : Nat)
    (hf : f < s.length) (ht : t < s.length)
    (hp : getSq s f = p) (hc : getSq s t = c) :
    (((s.set f EMPTY).set t v).set f p).set t c = s := by
  have hf1 : s[f] = p := by rw [← List.getD_eq_getElem s EMPTY hf]; exact hp
  have ht1 : s[t] = c := by rw [← List.getD_eq_getElem s EMPTY ht]; exact hc
  apply List.ext_getElem (by simp)
  intro i h1 h2
  simp only [List.getElem_set]
  by_cases hti : t = i
  · subst hti; simp [ht1]
  · by_cases hfi : f = i
    · subst hfi; simp [hti, hf1]
    · simp [hti, hfi]

theorem roundtrip_ep (s : List Nat) (f t c p pw : Nat)
    (hf : f < s.length) (ht : t < s.length) (hc : c < s.length)
    (hp : getSq s f = p) (ht0 : getSq s t = EMPTY) (hcpw : getSq s c = pw) :
    (((((s.set f EMPTY).set t p).set c EMPTY).set f p).set t EMPTY).set c pw = s := by
  have hf1 : s[f] = p := by rw [← List.getD_eq_getElem s EMPTY hf]; exact hp
  have ht1 : s[t] = EMPTY := by rw [← List.getD_eq_getElem s EMPTY ht]; exact ht0
  have hc1 : s[c] = pw := by rw [← List.getD_eq_getElem s EMPTY hc]; exact hcpw
  apply List.ext_getElem (by simp)
  intro i h1 h2
  simp only [List.getElem_set]
  by_cases hci : c = i
  · subst hci; simp [hc1]
  · by_cases hti : t = i
    · subst hti; simp [hci, ht1]
    · by_cases hfi : f = i
      · subst hfi; simp [hci, hti, hf1]
      · simp [hci, hti, hfi]

theorem roundtrip_castle (s : List Nat) (f t rf rh p c : Nat)
    (hf : f < s.length) (ht : t < s.length) (hrf : rf < s.length) (hrh : rh < s.length)
    (hfrf : f ≠ rf) (hfrh : f ≠ rh) (htrf : t ≠ rf) (htrh : t ≠ rh) (hrfrh : rf ≠ rh)
    (hp : getSq s f = p) (hc : getSq s t = c) (hrf0 : getSq s rf = EMPTY) :
    (((((((s.set f EMPTY).set t p).set rf
          (getSq ((s.set f EMPTY).set t p) rh)).set rh EMPTY).set f p).set t c).set rh
        (getSq ((((((s.set f EMPTY).set t p).set rf
          (getSq ((s.set f EMPTY).set t p) rh)).set rh EMPTY).set f p).set t c) rf)).set rf
      EMPTY = s := by
  have hf1 : s[f] = p := by rw [← List.getD_eq_getElem s EMPTY hf]; exact hp
  have ht1 : s[t] = c := by rw [← List.getD_eq_getElem s EMPTY ht]; exact hc
  have hrf1 : s[rf] = EMPTY := by rw [← List.getD_eq_getElem s EMPTY hrf]; exact hrf0
  have hxrh : getSq ((s.set f EMPTY).set t p) rh = getSq s rh := by
    rw [getSq_set_ne _ _ _ _ htrh, getSq_set_ne _ _ _ _ hfrh]
  have hu2rf :
      getSq ((((((s.set f EMPTY).set t p).set rf
          (getSq ((s.set f EMPTY).set t p) rh)).set rh EMPTY).set f p).set t c) rf =
        getSq s rh := by
    rw [getSq_set_ne _ _ _ _ htrf, getSq_set_ne _ _ _ _ hfrf,
      getSq_set_ne _ _ _ _ hrfrh.symm, getSq_set_self _ _ _ (by simp [hrf]), hxrh]
  rw [hu2rf, hxrh]
  have hrh1 : getSq s rh = s[rh] := List.getD_eq_getElem s EMPTY hrh
  apply List.ext_getElem (by simp)
  intro i h1 h2
  simp only [List.getElem_set]
  by_cases hrfi : rf = i
  · subst hrfi; simp [hrf1]
  · by_cases hrhi : rh = i
    · subst hrhi; simp [hrfi, hrh1]
    · by_cases hti : t = i
      · subst hti; simp [hrfi, hrhi, ht1]
      · by_cases hfi : f = i
        · subst hfi; simp [hrfi, hrhi, hti, hf1]
        · simp [hrfi, hrhi, hti, hfi]

/-- The facts `getLegalMoves` guarantees about a generated move on a
reachable position: `createMove` read `piece`, `captured` and the saved
castling rights / en passant square / half-move clock from the board, the
squares are in range, the move is the side to move's, the king cache points
at a moving king, an en passant move targets a consistent en passant square
(empty target, enemy pawn behind it), and a castling move has one of the
four generated shapes with the rook transit square empty. -/
def MoveOK (b : Board) (m : Move) : Prop :=
  b.squares.length = 64 ∧
  (b.turn = WHITE ∨ b.turn = BLACK) ∧
  m.fromSq < 64 ∧
  m.toSq < 64 ∧
  m.piece = getSq b.squares m.fromSq ∧
  m.piece &&& COLOR_MASK = b.turn ∧
  m.captured = (if m.isEnPassant then PAWN ||| other b.turn else getSq b.squares m.toSq) ∧
  m.castlingRights = b.castlingRights ∧
  m.enPassantSquare = b.enPassantSquare ∧
  m.halfMoveClock = b.halfMoveClock ∧
  (m.piece &&& PIECE_MASK = KING →
    (if b.turn = WHITE then b.whiteKingPos else b.blackKingPos) = m.fromSq) ∧
  (m.isEnPassant = true →
    m.promotion = EMPTY ∧ m.isCastle = false ∧
    (0 : Int) ≤ epCapSq m.toSq b.turn ∧ epCapSq m.toSq b.turn < 64 ∧
    getSq b.squares (epCapSq m.toSq b.turn).toNat = PAWN ||| other b.turn ∧
    getSq b.squares m.toSq = EMPTY) ∧
  (m.isCastle = true →
    m.promotion = EMPTY ∧ m.isEnPassant = false ∧ m.piece &&& PIECE_MASK = KING ∧
    ((m.fromSq = 4 ∧ m.toSq = 6 ∧ getSq b.squares 5 = EMPTY) ∨
     (m.fromSq = 4 ∧ m.toSq = 2 ∧ getSq b.squares 3 = EMPTY) ∨
     (m.fromSq = 60 ∧ m.toSq = 62 ∧ getSq b.squares 61 = EMPTY) ∨
     (m.fromSq = 60 ∧ m.toSq = 58 ∧ getSq b.squares 59 = EMPTY)))

instance (b : Board) (m : Move) : Decidable (MoveOK b m) := by
  unfold MoveOK
  infer_instance


/-! ### The transposition-table key covers exactly the first four fields -/

/-- The piece codes that can occur on a board loaded from a well-formed
textual position: empty plus the twelve coloured pieces. -/
def validPieceCodes : List Nat := [0, 9, 10, 11, 12, 13, 14, 17, 18, 19, 20, 21, 22]

/-- A board whose components are in the ranges the engine maintains. -/
def ValidBoard (b : Board) : Prop :=
  b.squares.length = 64 ∧ (∀ p ∈ b.squares, p ∈ validPieceCodes) ∧
  (b.turn = WHITE ∨ b.turn = BLACK) ∧ b.castlingRights < 16 ∧
  (b.enPassantSquare = -1 ∨ (0 ≤ b.enPassantSquare ∧ b.enPassantSquare < 64))

instance (b : Board) : Decidable (ValidBoard b) := by
  unfold ValidBoard
  infer_instance

theorem pieceToFenChar_ne (p : Nat) : pieceToFenChar p ≠ ' ' ∧ pieceToFenChar p ≠ '/' := by
  simp only [pieceToFenChar]
  split_ifs <;> exact ⟨by decide, by decide⟩

theorem digitChar_ne : ∀ e < 17, Char.ofNat (48 + e) ≠ ' ' ∧ Char.ofNat (48 + e) ≠ '/' := by
  decide

theorem fenRankGo_chars : ∀ (cells : List Nat) (e : Nat), e + cells.length ≤ 8 →
    ∀ c ∈ fenRankGo cells e, c ≠ ' ' ∧ c ≠ '/'
  | [], e, hb, c, hc => by
    unfold fenRankGo at hc
    by_cases he : e > 0
    · rw [if_pos he] at hc
      simp only [List.mem_singleton] at hc
      subst hc
      exact digitChar_ne e (by omega)
    · rw [if_neg he] at hc
      exact absurd hc (List.not_mem_nil c)
  | c0 :: rest, e, hb, c, hc => by
    unfold fenRankGo at hc
    by_cases h0 : c0 = EMPTY
    · rw [if_pos h0] at hc
      exact fenRankGo_chars rest (e + 1) (by simp at hb ⊢; omega) c hc
    · rw [if_neg h0] at hc
      simp only [List.mem_append, List.mem_cons] at hc
      rcases hc with hd | hp | hz
      · by_cases he : e > 0
        · rw [if_pos he] at hd
          simp only [List.mem_singleton] at hd
          subst hd
          exact digitChar_ne e (by simp at hb; omega)
        · rw [if_neg he] at hd
          exact absurd hd (List.not_mem_nil c)
      · subst hp
        exact pieceToFenChar_ne c0
      · exact fenRankGo_chars rest 0 (by simp at hb; omega) c hz

theorem splitOn_chunk (A rest : List Char) (hA : ' ' ∉ A) :
    (A ++ ' ' :: rest).splitOn ' ' = A :: rest.splitOn ' ' := by
  unfold List.splitOn
  exact List.splitOnP_first _ A (by intro x hx; simp; exact fun h => hA (h ▸ hx)) ' '
    (by simp) rest

theorem intercalate_cons_cons (x : Char) (a b : List Char) (t : List (List Char)) :
    [x].intercalate (a :: b :: t) = a ++ x :: [x].intercalate (b :: t) := by
  simp [List.intercalate, List.intersperse]

theorem intercalate_single (x : Char) (a : List Char) : [x].intercalate [a] = a := by
  simp [List.intercalate]

theorem mem_intercalate_sep (x : Char) :
    ∀ (ls : List (List Char)), ∀ c ∈ [x].intercalate ls, c = x ∨ ∃ l ∈ ls, c ∈ l
  | [], c, hc => by simp [List.intercalate] at hc
  | [a], c, hc => by
    rw [intercalate_single] at hc
    exact Or.inr ⟨a, by simp, hc⟩
  | a :: b :: t, c, hc => by
    rw [intercalate_cons_cons] at hc
    simp only [List.mem_append, List.mem_cons] at hc
    rcases hc with h | h | h
    · exact Or.inr ⟨a, by simp, h⟩
    · exact Or.inl h
    · rcases mem_intercalate_sep x (b :: t) c h with h2 | ⟨l, hl, hcl⟩
      · exact Or.inl h2
      · exact Or.inr ⟨l, by simp at hl ⊢; tauto, hcl⟩

theorem fenPlacement_no_space (squares : List Nat) : ' ' ∉ fenPlacement squares := by
  intro hmem
  rcases mem_intercalate_sep '/' _ _ hmem with h | ⟨l, hl, hcl⟩
  · exact absurd h (by decide)
  · simp only [List.mem_map] at hl
    obtain ⟨rank, -, hrank⟩ := hl
    subst hrank
    exact (fenRankGo_chars (rankCells squares rank) 0 (by simp [rankCells]) ' ' hcl).1 rfl

theorem fenTurn_no_space (t : Nat) : ' ' ∉ fenTurn t := by
  unfold fenTurn
  split_ifs <;> decide

theorem fenCastling_no_space (r : Nat) : ' ' ∉ fenCastling r := by
  simp only [fenCastling]
  split_ifs <;> decide

theorem fenEp_no_space (e : Int) (h : e = -1 ∨ (0 ≤ e ∧ e < 64)) : ' ' ∉ fenEp e := by
  rcases h with h | ⟨h0, h64⟩
  · subst h
    decide
  · unfold fenEp
    rw [if_pos (by omega)]
    have hf : e.toNat % 8 < 8 := Nat.mod_lt _ (by omega)
    have hr : e.toNat / 8 < 8 := by omega
    have hfc : ∀ k < 8, Char.ofNat (97 + k) ≠ ' ' := by decide
    have hrc : ∀ k < 8, Char.ofNat (49 + k) ≠ ' ' := by decide
    simp only [List.mem_cons, List.not_mem_nil, or_false]
    intro hc
    rcases hc with hc | hc
    · exact hfc _ hf hc.symm
    · exact hrc _ hr hc.symm

/-- The four-field prefix of the textual position: placement, side to move,
castling rights, en passant target. -/
def fenFour (b : Board) : List Char :=
  fenPlacement b.squares ++ ' ' :: fenTurn b.turn ++ ' ' :: fenCastling b.castlingRights ++
    ' ' :: fenEp b.enPassantSquare

/-- The transposition-table key of a position's textual form is exactly its
first four fields. -/
theorem ttKey_toFen (b : Board)
    (hep : b.enPassantSquare = -1 ∨ (0 ≤ b.enPassantSquare ∧ b.enPassantSquare < 64)) :
    ttKey (toFen b) = fenFour b := by
  unfold ttKey toFen fenFour
  simp only [List.append_assoc, List.singleton_append, List.cons_append, List.nil_append]
  rw [splitOn_chunk _ _ (fenPlacement_no_space b.squares),
    splitOn_chunk _ _ (fenTurn_no_space b.turn),
    splitOn_chunk _ _ (fenCastling_no_space b.castlingRights),
    splitOn_chunk _ _ (fenEp_no_space b.enPassantSquare hep)]
  simp only [List.take_succ_cons, List.take_zero]
  rw [intercalate_cons_cons, intercalate_cons_cons, intercalate_cons_cons,
    intercalate_single]

/-- Peeling one space-separated chunk off an equality of chunked lists. -/
theorem chunk_peel (A1 A2 R1 R2 : List Char) (h1 : ' ' ∉ A1) (h2 : ' ' ∉ A2)
    (h : A1 ++ ' ' :: R1 = A2 ++ ' ' :: R2) : A1 = A2 ∧ R1 = R2 := by
  have hs := congrArg (List.splitOn ' ') h
  rw [splitOn_chunk _ _ h1, splitOn_chunk _ _ h2] at hs
  have hA : A1 = A2 := by injection hs
  have hR : List.splitOn ' ' R1 = List.splitOn ' ' R2 := by injection hs
  refine ⟨hA, ?_⟩
  have := congrArg ([' '].intercalate) hR
  rwa [List.intercalate_splitOn, List.intercalate_splitOn] at this

/-- Decode one rank string back to its cells: digits 1-8 expand to runs of
empties, letters decode through `fenCharToPiece` (the same decoding
`loadFromFen` applies to a placement row). -/
def decodeRankCells : List Char → List Nat
  | [] => []
  | c :: rest =>
    if '1' ≤ c ∧ c ≤ '8' then
      List.replicate (c.toNat - 48) EMPTY ++ decodeRankCells rest
    else fenCharToPiece c :: decodeRankCells rest

theorem digitChar_decode : ∀ e < 9, 1 ≤ e →
    ('1' ≤ Char.ofNat (48 + e) ∧ Char.ofNat (48 + e) ≤ '8') ∧
      (Char.ofNat (48 + e)).toNat - 48 = e := by
  decide

theorem validPiece_decode : ∀ p ∈ validPieceCodes, p ≠ EMPTY →
    (¬('1' ≤ pieceToFenChar p ∧ pieceToFenChar p ≤ '8')) ∧
      fenCharToPiece (pieceToFenChar p) = p := by
  decide

/-- Decoding is a left inverse of rank encoding on valid cells. -/
theorem decode_fenRankGo : ∀ (cells : List Nat) (e : Nat),
    (∀ c ∈ cells, c ∈ validPieceCodes) → e + cells.length ≤ 8 →
    decodeRankCells (fenRankGo cells e) = List.replicate e EMPTY ++ cells
  | [], e, _, hb => by
    unfold fenRankGo
    by_cases he : e > 0
    · rw [if_pos he]
      unfold decodeRankCells
      have hd := digitChar_decode e (by simp at hb; omega) he
      rw [if_pos hd.1, hd.2]
      simp [decodeRankCells]
    · rw [if_neg he]
      simp [decodeRankCells]
      omega
  | c0 :: rest, e, hv, hb => by
    unfold fenRankGo
    by_cases h0 : c0 = EMPTY
    · rw [if_pos h0]
      rw [decode_fenRankGo rest (e + 1) (fun c hc => hv c (by simp [hc]))
        (by simp at hb ⊢; omega)]
      subst h0
      rw [List.replicate_succ' e EMPTY]
      simp
    · rw [if_neg h0]
      have hp := validPiece_decode c0 (hv c0 (by simp)) h0
      have hrest := decode_fenRankGo rest 0 (fun c hc => hv c (by simp [hc]))
        (by simp at hb ⊢; omega)
      by_cases he : e > 0
      · rw [if_pos he]
        have hd := digitChar_decode e (by simp at hb; omega) he
        simp only [List.singleton_append]
        unfold decodeRankCells
        rw [if_pos hd.1, hd.2]
        unfold decodeRankCells
        rw [if_neg hp.1, hp.2, hrest]
        simp
      · rw [if_neg he]
        simp only [List.nil_append]
        unfold decodeRankCells
        rw [if_neg hp.1, hp.2, hrest]
        simp
        omega

theorem fenPlacement_splitOn (s : List Nat) :
    (fenPlacement s).splitOn '/' =
      ((List.range 8).reverse).map fun rank => fenRankGo (rankCells s rank) 0 := by
  apply List.splitOn_intercalate
  · intro l hl
    simp only [List.mem_map] at hl
    obtain ⟨rank, -, hrank⟩ := hl
    subst hrank
    intro hmem
    exact (fenRankGo_chars _ 0 (by simp [rankCells]) '/' hmem).2 rfl
  · simp

theorem rankCells_valid (s : List Nat) (hv : ∀ p ∈ s, p ∈ validPieceCodes)
    (rank : Nat) : ∀ c ∈ rankCells s rank, c ∈ validPieceCodes := by
  intro c hc
  simp only [rankCells, List.mem_map] at hc
  obtain ⟨file, -, hfile⟩ := hc
  subst hfile
  by_cases h : rank * 8 + file < s.length
  · exact hv _ (by rw [getSq, List.getD_eq_getElem s EMPTY h]; exact List.getElem_mem h)
  · rw [getSq, List.getD_eq_getElem?_getD, List.getElem?_eq_none (by omega)]
    decide

/-- The placement field determines the squares. -/
theorem fenPlacement_inj (s1 s2 : List Nat)
    (hl1 : s1.length = 64) (hl2 : s2.length = 64)
    (hv1 : ∀ p ∈ s1, p ∈ validPieceCodes) (hv2 : ∀ p ∈ s2, p ∈ validPieceCodes)
    (h : fenPlacement s1 = fenPlacement s2) : s1 = s2 := by
  have hs := congrArg (List.splitOn '/') h
  rw [fenPlacement_splitOn, fenPlacement_splitOn] at hs
  have hranks : ∀ rank ∈ (List.range 8).reverse,
      fenRankGo (rankCells s1 rank) 0 = fenRankGo (rankCells s2 rank) 0 :=
    List.map_inj_left.mp hs
  have hcells : ∀ rank < 8, rankCells s1 rank = rankCells s2 rank := by
    intro rank hr
    have h1 := decode_fenRankGo (rankCells s1 rank) 0 (rankCells_valid s1 hv1 rank)
      (by simp [rankCells])
    have h2 := decode_fenRankGo (rankCells s2 rank) 0 (rankCells_valid s2 hv2 rank)
      (by simp [rankCells])
    simp only [List.replicate, List.nil_append] at h1 h2
    rw [← h1, ← h2, hranks rank (by simp; omega)]
  apply List.ext_getElem (by omega)
  intro i hi1 hi2
  have hrf : i = i / 8 * 8 + i % 8 := by omega
  have hcell := hcells (i / 8) (by omega)
  have hcc := congrArg (fun l => l.getD (i % 8) 0) hcell
  simp only [rankCells, List.getD_eq_getElem?_getD, List.getElem?_map] at hcc
  rw [List.getElem?_eq_getElem (by simp only [List.length_range]; omega :
    i % 8 < (List.range 8).length)] at hcc
  simp only [List.getElem_range] at hcc
  simp at hcc
  unfold getSq at hcc
  rw [← hrf] at hcc
  rw [List.getD_eq_getElem s1 EMPTY hi1, List.getD_eq_getElem s2 EMPTY hi2] at hcc
  exact hcc

theorem fenTurn_inj (t1 t2 : Nat) (h1 : t1 = WHITE ∨ t1 = BLACK)
    (h2 : t2 = WHITE ∨ t2 = BLACK) (h : fenTurn t1 = fenTurn t2) : t1 = t2 := by
  rcases h1 with h1 | h1 <;> rcases h2 with h2 | h2 <;> subst h1 <;> subst h2 <;>
    first
    | rfl
    | exact absurd h (by decide)

theorem fenCastling_inj : ∀ a < 16, ∀ b < 16, fenCastling a = fenCastling b → a = b := by
  decide

theorem fenEpChars_inj : ∀ a < 64, ∀ b < 64,
    ([Char.ofNat (97 + a % 8), Char.ofNat (49 + a / 8)] : List Char) =
      [Char.ofNat (97 + b % 8), Char.ofNat (49 + b / 8)] → a = b := by
  decide

theorem fenEp_inj (e1 e2 : Int)
    (h1 : e1 = -1 ∨ (0 ≤ e1 ∧ e1 < 64)) (h2 : e2 = -1 ∨ (0 ≤ e2 ∧ e2 < 64))
    (h : fenEp e1 = fenEp e2) : e1 = e2 := by
  rcases h1 with h1 | ⟨h1a, h1b⟩
  · rcases h2 with h2 | ⟨h2a, h2b⟩
    · rw [h1, h2]
    · subst h1
      unfold fenEp at h
      rw [if_neg (by omega), if_pos (by omega)] at h
      exact absurd h (by simp)
  · rcases h2 with h2 | ⟨h2a, h2b⟩
    · subst h2
      unfold fenEp at h
      rw [if_pos (by omega), if_neg (by omega)] at h
      exact absurd h (by simp)
    · unfold fenEp at h
      rw [if_pos (by omega), if_pos (by omega)] at h
      have := fenEpChars_inj e1.toNat (by omega) e2.toNat (by omega) h
      omega

/-- C8: the transposition-table key of a position consists exactly of the
first four fields of its textual form.  For boards with in-range components
two keys are equal if and only if the squares, side to move, castling
rights and en passant target all agree — so positions differing only in
the clocks share a key, and positions differing in any of the four fields
have different keys.  The same key function is used by `store` and
`lookup`. -/
theorem c8_tt_key_four_fields (b1 b2 : Board)
    (h1 : ValidBoard b1) (h2 : ValidBoard b2) :
    ttKey (toFen b1) = ttKey (toFen b2) ↔
      (b1.squares = b2.squares ∧ b1.turn = b2.turn ∧
       b1.castlingRights = b2.castlingRights ∧
       b1.enPassantSquare = b2.enPassantSquare) := by
  obtain ⟨hl1, hv1, ht1, hc1, he1⟩ := h1
  obtain ⟨hl2, hv2, ht2, hc2, he2⟩ := h2
  rw [ttKey_toFen b1 he1, ttKey_toFen b2 he2]
  constructor
  · intro h
    unfold fenFour at h
    simp only [List.cons_append, List.append_assoc] at h
    obtain ⟨hP, h⟩ := chunk_peel _ _ _ _ (fenPlacement_no_space b1.squares)
      (fenPlacement_no_space b2.squares) h
    obtain ⟨hT, h⟩ := chunk_peel _ _ _ _ (fenTurn_no_space b1.turn)
      (fenTurn_no_space b2.turn) h
    obtain ⟨hC, hE⟩ := chunk_peel _ _ _ _ (fenCastling_no_space b1.castlingRights)
      (fenCastling_no_space b2.castlingRights) h
    exact ⟨fenPlacement_inj _ _ hl1 hl2 hv1 hv2 hP,
      fenTurn_inj _ _ ht1 ht2 hT,
      fenCastling_inj _ hc1 _ hc2 hC,
      fenEp_inj _ _ he1 he2 hE⟩
  · rintro ⟨hs, ht, hc, he⟩
    unfold fenFour
    rw [hs, ht, hc, he]

/-- Witness for `c8_tt_key_four_fields`: the position after 1.e4 and the
same position with different clocks share a key. -/
theorem c8_tt_key_four_fields_witness :
    ttKey (toFen afterE4) =
      ttKey (toFen { afterE4 with halfMoveClock := 33, fullMoveNumber := 7 }) :=
  (c8_tt_key_four_fields afterE4 { afterE4 with halfMoveClock := 33, fullMoveNumber := 7 }
    (by decide) (by decide)).mpr (by decide)


/-- A minimal position with legal moves for the timed-out search run:
white king a1 and pawn e4, black king a8 and pawn d5, white to move
(FEN k7/8/8/3p4/4P3/8/8/K7 w - - 0 1). -/
def c6Board : Board :=
  { squares :=
      [14, 0, 0, 0, 0, 0, 0, 0,
       0, 0, 0, 0, 0, 0, 0, 0,
       0, 0, 0, 0, 0, 0, 0, 0,
       0, 0, 0, 0, 9, 0, 0, 0,
       0, 0, 0, 17, 0, 0, 0, 0,
       0, 0, 0, 0, 0, 0, 0, 0,
       0, 0, 0, 0, 0, 0, 0, 0,
       22, 0, 0, 0, 0, 0, 0, 0],
    turn := WHITE, castlingRights := 0, enPassantSquare := -1,
    halfMoveClock := 0, fullMoveNumber := 1,
    whiteKingPos := 0, blackKingPos := 56, history := [] }

/-- An engine on `c6Board` with a positive time limit whose clock reads 0
once and two million milliseconds ever after, so the first time poll
aborts the search.  The poll interval is set to one node to keep the
aborted run small; with the constructor's interval of 1000 the same abort
happens on any position whose first iteration reaches 1000 nodes (the
all-pawn wall k7/8/8/pppppppp/PPPPPPPP/8/8/K7 does at depth 1). -/
def c6Engine : Engine :=
  { board := c6Board, timeLimit := 1000, maxDepth := 1,
    evaluations := 0, nodesSearched := 0, startTime := 0,
    timeCheckInterval := 1,
    transpositionTable := { table := [], maxSize := 1000000 },
    historyT := (fun _ => 0),
    killerMoves := List.replicate (MAX_PLY * 2) none,
    searchAborted := false,
    times := (fun k => if k = 0 then 0 else 2000000), clock := 0 }

/-! ## Claim theorems -/

/-- C1 (code bug): the null-move probe does not restore the board.  On the
position after 1.e4 the probe's guards hold (black is not in check and has
non-pawn material), the en passant target is e3 (square 20), yet
`undoNullMove (makeNullMove b)` has en passant target `-1`: `makeNullMove`
clears the en passant square and `undoNullMove` only flips the side to
move back, so the board is not restored. -/
theorem c1_null_probe_en_passant_lost :
    isInCheck afterE4 BLACK = false ∧
    hasNonPawnMaterial afterE4 = true ∧
    afterE4.enPassantSquare = 20 ∧
    (undoNullMove (makeNullMove afterE4)).enPassantSquare = -1 ∧
    undoNullMove (makeNullMove afterE4) ≠ afterE4 := by
  refine ⟨by decide, by decide, by decide, by decide, ?_⟩
  intro h
  have : (undoNullMove (makeNullMove afterE4)).enPassantSquare = afterE4.enPassantSquare := by
    rw [h]
  simp only [show (undoNullMove (makeNullMove afterE4)).enPassantSquare = -1 from by decide,
    show afterE4.enPassantSquare = 20 from by decide] at this
  exact absurd this (by decide)

/-- C2 counterexample: the legal capture Ra1xa8 on `c2Board` (a move whose
to-square is the rook home square a8, capturing the black queenside rook)
leaves the black queenside castling right set, because the rook-home clause
for a1 fires first in the `else if` chain of `updateCastlingRights`.  The
claim demands that the right be cleared. -/
theorem c2_rook_capture_keeps_enemy_right :
    moveRa1a8 ∈ (getLegalMoves c2Board).1 ∧
    (makeMove c2Board moveRa1a8).castlingRights &&& CASTLE_BLACK_QUEENSIDE =
      CASTLE_BLACK_QUEENSIDE := by
  exact ⟨by decide, by decide⟩

/-- C2 amended: `updateCastlingRights` clears both rights of a colour when
that king's home square is the from-square, and clears the right of the
first rook home square (in the fixed order a1, h1, a8, h8) matched by the
from- or to-square; a rook home square matched later in the chain keeps its
right.  Stated as an exact characterization of each of the four bits. -/
theorem c2_castling_rights_chain :
    ∀ r < 16, ∀ f t : Nat,
      (updateCastlingRights r f t &&& CASTLE_WHITE_QUEENSIDE = 0 ↔
        r &&& CASTLE_WHITE_QUEENSIDE = 0 ∨ f = 4 ∨ f = 0 ∨ t = 0) ∧
      (updateCastlingRights r f t &&& CASTLE_WHITE_KINGSIDE = 0 ↔
        r &&& CASTLE_WHITE_KINGSIDE = 0 ∨ f = 4 ∨
          ((f = 7 ∨ t = 7) ∧ ¬(f = 0 ∨ t = 0))) ∧
      (updateCastlingRights r f t &&& CASTLE_BLACK_QUEENSIDE = 0 ↔
        r &&& CASTLE_BLACK_QUEENSIDE = 0 ∨ f = 60 ∨
          ((f = 56 ∨ t = 56) ∧ ¬(f = 0 ∨ t = 0) ∧ ¬(f = 7 ∨ t = 7))) ∧
      (updateCastlingRights r f t &&& CASTLE_BLACK_KINGSIDE = 0 ↔
        r &&& CASTLE_BLACK_KINGSIDE = 0 ∨ f = 60 ∨
          ((f = 63 ∨ t = 63) ∧ ¬(f = 0 ∨ t = 0) ∧ ¬(f = 7 ∨ t = 7) ∧
            ¬(f = 56 ∨ t = 56))) := by
  intro r hr f t
  unfold updateCastlingRights
  split_ifs <;>
    refine ⟨?_, ?_, ?_, ?_⟩ <;>
    simp_all [CASTLE_WHITE_KINGSIDE, CASTLE_WHITE_QUEENSIDE,
      CASTLE_BLACK_KINGSIDE, CASTLE_BLACK_QUEENSIDE] <;>
    (revert hr; revert r; decide)

/-- Witness for `c2_castling_rights_chain` at the counterexample inputs of
C2: rights Qq, from a1, to a8. -/
theorem c2_castling_rights_chain_witness :
    (updateCastlingRights 10 0 56 &&& CASTLE_BLACK_QUEENSIDE = 0 ↔
      (10 : Nat) &&& CASTLE_BLACK_QUEENSIDE = 0 ∨ (0 : Nat) = 60 ∨
        (((0 : Nat) = 56 ∨ (56 : Nat) = 56) ∧ ¬((0 : Nat) = 0 ∨ (56 : Nat) = 0) ∧
          ¬((0 : Nat) = 7 ∨ (56 : Nat) = 7))) :=
  (c2_castling_rights_chain 10 (by decide) 0 56).2.2.1

/-- C10: undoing a move on a board with empty history returns `null` and
leaves the board unchanged (board.js lines 822-826). -/
theorem c10_undo_on_empty_history (b : Board) (h : b.history = []) :
    undoMove b = (b, none) := by
  unfold undoMove
  rw [h]

/-- Witness for `c10_undo_on_empty_history` at the starting position. -/
theorem c10_undo_on_empty_history_witness :
    undoMove initialBoard = (initialBoard, none) :=
  c10_undo_on_empty_history initialBoard (by decide)

/-- C4 counterexample: a node searched with incoming window (0, 100) whose
single move scores 50 — strictly inside the window — stores flag upper
(TT_ALPHA), not exact: the flag comparison at engine1.js 563-564 uses the
loop-updated alpha, which the loop has already raised to 50. -/
theorem c4_inside_window_not_exact :
    ((0 : Int) < 50 ∧ (50 : Int) < 100) ∧
    ttStoreFlag 0 100 [50] = TT_ALPHA ∧ TT_ALPHA ≠ TT_EXACT := by
  refine ⟨by decide, by decide, by decide⟩

/-- C4 amended: the stored flag compares `bestScore` with the loop-updated
alpha rather than the incoming `α_in`; since the loop raises alpha to every
improving score, `bestScore ≤ alpha` always holds at the store (for any
incoming `α_in ≥ -INFINITY`), so the stored flag is always upper
(TT_ALPHA) — never exact and never lower. -/
theorem c4_flag_always_upper (alphaIn beta : Int) (scores : List Int)
    (h : -INFINITY ≤ alphaIn) : ttStoreFlag alphaIn beta scores = TT_ALPHA := by
  unfold ttStoreFlag
  have := searchLoopScores_le beta scores alphaIn (-INFINITY) h
  rw [if_pos this]

/-- Witness for `c4_flag_always_upper` at a window and score list where the
claim would have predicted an exact store. -/
theorem c4_flag_always_upper_witness : ttStoreFlag (-5) 7 [2, 6, 3] = TT_ALPHA :=
  c4_flag_always_upper (-5) 7 [2, 6, 3] (by decide)

/-- A malformed textual position: its placement field has only 7 ranks. -/
def badPlacementFen : List Char := "8/8/8/8/8/8/8 w - -".toList

/-- C5 counterexample: on a placement field with 7 ranks `loadFromFen`
raises the parse error but the board is NOT left untouched: the squares
were cleared before the 8-row check (board.js line 151 precedes line 155),
so square a1 no longer holds the rook it held before the call. -/
theorem c5_load_failure_clears_board :
    (loadFromFen initialBoard badPlacementFen).2 = some errRowsFen ∧
    (loadFromFen initialBoard badPlacementFen).1 ≠ initialBoard := by
  have hA : getSq (loadFromFen initialBoard badPlacementFen).1.squares 0 = EMPTY := by decide
  have hB : getSq initialBoard.squares 0 = ROOK ||| WHITE := by decide
  refine ⟨by decide, ?_⟩
  intro h
  have hc := congrArg (fun bb : Board => getSq bb.squares 0) h
  simp only at hc
  rw [hA, hB] at hc
  exact absurd hc (by decide)

/-- C5 amended: on an input with at least 4 fields whose placement field
does not split into exactly 8 ranks, `loadFromFen` raises the parse error
and leaves the side to move, castling rights, en passant target, clocks,
king caches and history unchanged, but the squares have already been
cleared to all-empty.  (Only the fewer-than-4-fields check fails with the
board fully untouched.) -/
theorem c5_load_failure_state (b : Board) (fen : List Char)
    (h1 : ¬(splitWs (trimChars fen)).length < 4)
    (h2 : (((splitWs (trimChars fen)).getD 0 []).splitOn '/').length ≠ 8) :
    loadFromFen b fen =
      ({ b with squares := List.replicate 64 EMPTY }, some errRowsFen) := by
  simp only [loadFromFen, if_neg h1, if_pos h2]

/-- Witness for `c5_load_failure_state` at the 7-rank input on the starting
position. -/
theorem c5_load_failure_state_witness :
    loadFromFen initialBoard badPlacementFen =
      ({ initialBoard with squares := List.replicate 64 EMPTY }, some errRowsFen) :=
  c5_load_failure_state initialBoard badPlacementFen (by decide) (by decide)

/-- C7 counterexample: a file with exactly two same-colour pawns contributes
`-30`, not the `-15` the claim states: the code multiplies the penalty by
the full pawn count of the file.  The `pawnStructureScore` instance is a
file-count vector whose only nonzero term is the doubled-pawn term of the
a-file (two white pawns there, one on the b-file so the a-file is not
isolated). -/
theorem c7_doubled_pawn_counterexample :
    doubledPawnFileTerm 2 = -30 ∧ ((-30 : Int) = -15 → False) ∧
    pawnStructureScore [2, 1, 0, 0, 0, 0, 0, 0] [0, 0, 0, 0, 0, 0, 0, 0] = -30 := by
  refine ⟨by decide, by decide, by decide⟩

/-- C7 amended: the doubled-pawn term of a file with `n ≥ 2` same-colour
pawns is `-15 * n` (that is, `-15` per pawn on the file, not per extra
pawn). -/
theorem c7_doubled_pawn_per_pawn (n : Nat) (h : 2 ≤ n) :
    doubledPawnFileTerm n = -15 * (n : Int) := by
  unfold doubledPawnFileTerm
  rw [if_pos (by omega : 1 < n)]
  rfl

/-- Witness for `c7_doubled_pawn_per_pawn` at a file with three pawns. -/
theorem c7_doubled_pawn_per_pawn_witness :
    doubledPawnFileTerm 3 = -15 * ((3 : Nat) : Int) :=
  c7_doubled_pawn_per_pawn 3 (by decide)

set_option maxRecDepth 100000 in
set_option maxHeartbeats 2000000 in
/-- C9 (code bug): `evaluatePosition` does not leave the board unchanged.
On the position after 1.e4 (en passant target e3), the mobility term flips
the side to move to white and generates white's moves; the d2 and f2 pawns
then produce bogus en passant captures onto the empty e3 square, and undoing
them writes a phantom black pawn onto e2 (square 12).  The side to move is
restored, but the squares are not. -/
theorem c9_eval_corrupts_board :
    (evaluatePosition afterE4).2 ≠ afterE4 ∧
    getSq (evaluatePosition afterE4).2.squares 12 = PAWN ||| BLACK ∧
    getSq afterE4.squares 12 = EMPTY ∧
    (evaluatePosition afterE4).2.turn = afterE4.turn := by
  have hA : getSq (evaluatePosition afterE4).2.squares 12 = PAWN ||| BLACK := by decide
  have hB : getSq afterE4.squares 12 = EMPTY := by decide
  have hT : (evaluatePosition afterE4).2.turn = afterE4.turn := by decide
  refine ⟨?_, hA, hB, hT⟩
  intro h
  have hc := congrArg (fun bb : Board => getSq bb.squares 12) h
  simp only at hc
  rw [hA, hB] at hc
  exact absurd hc (by decide)

/-- C3: make followed by unmake restores the board bit-identically.
`MoveOK b m` collects exactly the facts that hold of every move generated by
`getLegalMoves` on a reachable position `b`: the move's `piece`, `captured`
and saved fields were read from `b` by `createMove`, the squares are on the
board, the king caches point at the moving king, en passant moves sit on a
consistent en passant square, and castling moves have the generated shape.
Under these facts `undoMove (makeMove b m)` returns `b` itself together
with the popped move. -/
theorem c3_make_undo_roundtrip (b : Board) (m : Move) (h : MoveOK b m) :
    undoMove (makeMove b m) = (b, some m) := by
  obtain ⟨hlen, hturn, hf, ht, hpiece, hcolor, hcap, hcr, hepsave, hhm, hking, hepok, hcasok⟩ := h
  have hturn2 : other (other b.turn) = b.turn := by
    rcases hturn with h | h <;> rw [h] <;> decide
  have hflds : ∀ sq : List Nat, sq = b.squares →
      ({ squares := sq, turn := b.turn,
         castlingRights := m.castlingRights, enPassantSquare := m.enPassantSquare,
         halfMoveClock := m.halfMoveClock,
         fullMoveNumber :=
           if b.turn = BLACK then
             (if b.turn = BLACK then b.fullMoveNumber + 1 else b.fullMoveNumber) - 1
           else if b.turn = BLACK then b.fullMoveNumber + 1 else b.fullMoveNumber,
         whiteKingPos :=
           if m.piece &&& PIECE_MASK = KING ∧ b.turn = WHITE then m.fromSq
           else if m.piece &&& PIECE_MASK = KING ∧ b.turn = WHITE then m.toSq
           else b.whiteKingPos,
         blackKingPos :=
           if m.piece &&& PIECE_MASK = KING ∧ ¬b.turn = WHITE then m.fromSq
           else if m.piece &&& PIECE_MASK = KING ∧ ¬b.turn = WHITE then m.toSq
           else b.blackKingPos,
         history := b.history } : Board) = b := by
    intro sq hsq
    have hfm : (if b.turn = BLACK then
        (if b.turn = BLACK then b.fullMoveNumber + 1 else b.fullMoveNumber) - 1
      else if b.turn = BLACK then b.fullMoveNumber + 1 else b.fullMoveNumber) =
        b.fullMoveNumber := by
      by_cases hb : b.turn = BLACK <;> simp [hb]
    have hwk : (if m.piece &&& PIECE_MASK = KING ∧ b.turn = WHITE then m.fromSq
        else if m.piece &&& PIECE_MASK = KING ∧ b.turn = WHITE then m.toSq
        else b.whiteKingPos) = b.whiteKingPos := by
      by_cases hk : m.piece &&& PIECE_MASK = KING ∧ b.turn = WHITE
      · have := hking hk.1
        rw [if_pos hk.2] at this
        simp [hk, this]
      · simp [hk]
    have hbk : (if m.piece &&& PIECE_MASK = KING ∧ ¬b.turn = WHITE then m.fromSq
        else if m.piece &&& PIECE_MASK = KING ∧ ¬b.turn = WHITE then m.toSq
        else b.blackKingPos) = b.blackKingPos := by
      by_cases hk : m.piece &&& PIECE_MASK = KING ∧ ¬b.turn = WHITE
      · have := hking hk.1
        rw [if_neg hk.2] at this
        simp [hk, this]
      · simp [hk]
    rw [hfm, hwk, hbk, hsq, hcr, hepsave, hhm]
  cases hEP : m.isEnPassant
  · cases hCA : m.isCastle
    · -- plain move (possibly a promotion)
      rw [hEP] at hcap
      simp only [if_false, Bool.false_eq_true] at hcap
      by_cases hq : m.promotion = EMPTY <;>
        (simp [makeMove, undoMove, hEP, hCA, hq, hturn2]
         apply hflds
         exact roundtrip_basic b.squares m.fromSq m.toSq _ m.piece m.captured
           (by rw [hlen]; exact hf) (by rw [hlen]; exact ht) hpiece.symm hcap.symm)
    · -- castling move
      obtain ⟨hpr, -, hkg, hcases⟩ := hcasok hCA
      rw [hEP] at hcap
      simp only [if_false, Bool.false_eq_true] at hcap
      simp [makeMove, undoMove, hEP, hCA, hpr, hturn2]
      apply hflds
      rcases hcases with ⟨h4, h6, hE⟩ | ⟨h4, h6, hE⟩ | ⟨h4, h6, hE⟩ | ⟨h4, h6, hE⟩ <;>
        (rw [hpiece, hcap] at *
         rw [h4, h6]
         rw [h4] at hpiece
         rw [h6] at hcap
         simp only [show (6:Nat) ≠ 2 from by decide]
         exact roundtrip_castle b.squares _ _ _ _ _ _
           (by rw [hlen]; decide) (by rw [hlen]; decide) (by rw [hlen]; decide)
           (by rw [hlen]; decide) (by decide) (by decide) (by decide) (by decide)
           (by decide) hpiece.symm hcap.symm hE)
  · -- en passant capture
    obtain ⟨hpr, hcasF, hge, hlt, hcpawn, ht0⟩ := hepok hEP
    rw [hEP] at hcap
    simp only [if_true] at hcap
    have hge2 : (0 : Int) ≤ epCapSq m.toSq b.turn := hge
    simp [makeMove, undoMove, hEP, hcasF, hpr, setSqI, hturn2, hge2]
    apply hflds
    have hcn : (epCapSq m.toSq b.turn).toNat < 64 := by omega
    simp only [show (if b.turn = WHITE then BLACK else WHITE) = other b.turn from rfl]
    exact roundtrip_ep b.squares m.fromSq m.toSq (epCapSq m.toSq b.turn).toNat
      m.piece (PAWN ||| other b.turn)
      (by rw [hlen]; exact hf) (by rw [hlen]; exact ht) (by rw [hlen]; exact hcn)
      hpiece.symm ht0 hcpawn

/-- Witness for `c3_make_undo_roundtrip`: the double push e2e4 from the
starting position. -/
theorem c3_make_undo_roundtrip_witness :
    undoMove (makeMove initialBoard moveE2E4) = (initialBoard, some moveE2E4) :=
  c3_make_undo_roundtrip initialBoard moveE2E4 (by decide)

/-- Claim C6: `getBestMove` is claimed to return a move whenever the side
to move has a legal move, for any positive time limit and maximum depth at
least 1.  Refuted by the code path proved here: whenever the very first
iterative-deepening iteration ends with the time-abort flag set, the
deepening loop breaks before `bestMove` is ever assigned and `getBestMove`
returns `none` even though legal moves exist.  The abort flag is set by
`checkTime` once the polled clock exceeds the time limit, which needs no
property of the position beyond the search reaching a poll. -/
theorem c6_abort_returns_none (e0 : Engine) (r : Nat)
    (htl : 0 < e0.timeLimit)
    (hd : 1 ≤ e0.maxDepth)
    (hmoves : (getLegalMoves e0.board).1 ≠ [])
    (hbook : bookLookup (toFen (searchSetup e0).board) = none)
    (habort : (searchAtDepth (orderingReset (searchSetup e0)) 1).2.searchAborted
      = true) :
    (getBestMove e0 r).1 = none := by
  obtain ⟨m, hm⟩ : ∃ m, e0.maxDepth = m + 1 := ⟨e0.maxDepth - 1, by omega⟩
  have hmd : (orderingReset (searchSetup e0)).maxDepth = m + 1 := by
    simp [orderingReset, searchSetup, now, hm]
  unfold getBestMove
  simp only [hbook]
  rw [hmd]
  unfold idLoop
  rw [if_neg (by rw [hmd]; omega), if_pos habort]
  rfl

set_option maxRecDepth 100000 in
set_option maxHeartbeats 2000000 in
/-- Witness for `c6_abort_returns_none`: on `c6Engine` every hypothesis
holds by evaluation — the position has legal moves, the book misses, the
first depth-1 search aborts on time — and `getBestMove` returns `none`. -/
theorem c6_abort_returns_none_witness :
    0 < c6Engine.timeLimit ∧ 1 ≤ c6Engine.maxDepth ∧
    (getLegalMoves c6Engine.board).1 ≠ [] ∧
    bookLookup (toFen (searchSetup c6Engine).board) = none ∧
    (searchAtDepth (orderingReset (searchSetup c6Engine)) 1).2.searchAborted
      = true ∧
    (getBestMove c6Engine 0).1 = none :=
  ⟨by decide, by decide, by decide, by decide, by decide,
   c6_abort_returns_none c6Engine 0 (by decide) (by decide) (by decide)
     (by decide) (by decide)⟩

end Chess
